import Mathlib

/-!
Shallow embedding of the smartapi routing / request-binding layer
(package `smartapi`: `arguments.go`, `router.go`, `server.go`, `setters.go`,
`smartapi.go`, `tagstruct.go`, and the endpoint dispatch handlers).

Modelling conventions:
* `net/http`'s `ResponseWriter` is modelled as a status line plus an
  accumulated body.  `WriteHeader` sets the status only once (superfluous
  calls are no-ops, as in `net/http`); `Write` implicitly writes status 200
  first when no status has been written yet (`net/http` semantics).
* Machine integers carry no overflow in any of the modelled code paths, so
  status codes and counters are `Nat`.
* Log-only data (the `message` field of `statusError`, the `Logger`) is not
  modelled: it never reaches the wire.  Likewise middleware functions are
  opaque and carried only as a flag.
* `encoding/json` decoding is an external collaborator; it is modelled as an
  explicit decoder parameter `decode : GoType → String → Option GoValue`
  ("valid JSON for type t" ≡ `decode t body = some v`).
* JSON encoding of the error body mirrors Go's `json.NewEncoder(w).Encode`
  on `errorResponse{Status, Reason}`: the object text followed by one
  newline, with Go's string escaping (including HTML escaping of `<>&`).
-/

namespace Smartapi

/-- Model of `net/http.ResponseWriter` as observed by clients: the written
status line (none until something is written) and the body bytes. -/
structure RespWriter where
  status : Option Nat
  body : String
  deriving DecidableEq, Repr

def RespWriter.empty : RespWriter := ⟨none, ""⟩

/-- `w.WriteHeader(code)`: writes the status line once; later calls are
no-ops (net/http ignores a superfluous WriteHeader). -/
def RespWriter.writeHeader (w : RespWriter) (code : Nat) : RespWriter :=
  match w.status with
  | none => { w with status := some code }
  | some _ => w

/-- `w.Write(bytes)`: implicitly writes status 200 first when no status has
been written yet, then appends to the body. -/
def RespWriter.write (w : RespWriter) (s : String) : RespWriter :=
  let w1 := w.writeHeader 200
  { w1 with body := w1.body ++ s }

/-- `statusError` (errors.go) restricted to its wire-visible fields:
`errCode` (Status()) and `reason` (Reason()); the log-only `message`
(Error()) is not modelled. -/
structure StatusError where
  errCode : Nat
  reason : String
  deriving DecidableEq, Repr

/-- A Go `error` value as seen by `handleError`: either it satisfies the
`ApiError` capability (`errors.As(err, &apiErr)` succeeds) or it is a plain
error carrying only a message. -/
inductive GoError where
  | api (e : StatusError)
  | plain (message : String)
  deriving DecidableEq, Repr

/-- `smartapi.Error(status, logMsg, reason)` / `WrapError(status, err, reason)`:
both construct a `statusError` with the given status and reason (the
log-only message argument is dropped by the model). -/
def apiError (status : Nat) (reason : String) : GoError :=
  .api ⟨status, reason⟩

/-- One hex digit, lower case, as produced by Go's JSON `\u00XX` escapes. -/
def hexDigit (n : Nat) : Char :=
  if n < 10 then Char.ofNat (48 + n) else Char.ofNat (87 + n)

/-- Go `encoding/json` escaping of a single character inside a JSON string
(default encoder: HTML-escapes `<`, `>`, `&`). -/
def jsonEscapeChar (c : Char) : String :=
  if c = '\x22' then "\\\x22"
  else if c = '\\' then "\\\\"
  else if c = '\n' then "\\n"
  else if c = '\r' then "\\r"
  else if c = '\t' then "\\t"
  else if c = '<' then "\\u003c"
  else if c = '>' then "\\u003e"
  else if c = '&' then "\\u0026"
  else if c.toNat < 32 then
    "\\u00" ++ String.mk [hexDigit (c.toNat / 16), hexDigit (c.toNat % 16)]
  else String.singleton c

/-- Go `encoding/json` encoding of a string value. -/
def jsonEncodeString (s : String) : String :=
  "\x22" ++ String.join (s.data.map jsonEscapeChar) ++ "\x22"

/-- The bytes `json.NewEncoder(w).Encode(errorResponse{Status: status,
Reason: reason})` writes: the JSON object followed by a single newline. -/
def errorResponseBody (status : Nat) (reason : String) : String :=
  "\x7b\x22status\x22:" ++ toString status ++ ",\x22reason\x22:"
    ++ jsonEncodeString reason ++ "\x7d\n"

/-- `handleError` (endpoint.go): an error satisfying the ApiError capability
is rendered with its own status and reason; any other error is rendered as
500 with reason "unknown" (the original message is only logged). -/
def handleError (w : RespWriter) (err : GoError) : RespWriter :=
  match err with
  | .api e => (w.writeHeader e.errCode).write (errorResponseBody e.errCode e.reason)
  | .plain _ => (w.writeHeader 500).write (errorResponseBody 500 "unknown")

/-- Model of `*http.Request` as consumed by the argument providers.
`malformedForm` models `r.ParseForm()` failing; `bodyReadError` models
`ioutil.ReadAll(r.Body)` failing. -/
structure HttpRequest where
  headers : List (String × String)
  cookies : List (String × String)
  form : List (String × String)
  postForm : List (String × String)
  urlParams : List (String × String)
  body : String
  malformedForm : Bool
  bodyReadError : Bool
  deriving Repr

/-- `Header.Get` / `Form.Get` / `PostForm.Get` / `chi.URLParam`: first value
for the key, or the empty string when absent. -/
def getFirst (l : List (String × String)) (key : String) : String :=
  match l.find? (fun p => p.1 = key) with
  | none => ""
  | some p => p.2

/-- `r.Cookie(name)`: the named cookie's value, or `none` when the request
carries no such cookie (in which case Go returns `http.ErrNoCookie`). -/
def findCookie (r : HttpRequest) (name : String) : Option String :=
  (r.cookies.find? (fun p => p.1 = name)).map (fun p => p.2)

mutual

/-- A `reflect.Type` as inspected by the registration-time checks.  Struct
types carry their (possibly `smartapi`-tagged) fields, which is what
`requestStruct` iterates. -/
inductive GoType where
  | stringT
  | intT
  | byteSliceT
  | sliceT (elem : GoType)
  | readerT
  | ctxT
  | responseWriterT
  | headersT
  | cookiesT
  | errorT
  | ptrT (t : GoType)
  | structT (name : String) (fields : FieldList)
  deriving DecidableEq, Repr

/-- The fields of a Go struct type: field name, the value of the `smartapi`
struct tag (`none` when the tag is absent), and the field type. -/
inductive FieldList where
  | fnil
  | fcons (fieldName : String) (tag : Option String) (typ : GoType) (rest : FieldList)
  deriving DecidableEq, Repr

end

/-- `reflect.Kind` for the fragment of types the code inspects. -/
inductive GoKind where
  | stringK | intK | sliceK | ptrK | interfaceK | structK
  deriving DecidableEq, Repr

def GoType.kind : GoType → GoKind
  | .stringT => .stringK
  | .intT => .intK
  | .byteSliceT => .sliceK
  | .sliceT _ => .sliceK
  | .readerT => .interfaceK
  | .ctxT => .interfaceK
  | .responseWriterT => .interfaceK
  | .headersT => .interfaceK
  | .cookiesT => .interfaceK
  | .errorT => .interfaceK
  | .ptrT _ => .ptrK
  | .structT _ _ => .structK

/-- `t.Implements(errType)`: only the `error` interface type itself in the
modelled fragment. -/
def implementsError (t : GoType) : Bool := t = GoType.errorT

/-- The type `*http.Request` (`fullRequestType` in arguments.go). -/
def httpRequestType : GoType := .ptrT (.structT "http.Request" .fnil)

mutual

/-- The `Argument` implementations of arguments.go.  `tagStructArgument`
stores the struct type, the OR of the field flags, and the per-field
arguments (`askip` is the `nil` placeholder for an untagged field). -/
inductive Argument where
  | headerArgument (name : String)
  | requiredHeaderArgument (name : String)
  | jsonBodyArgument (typ : GoType)
  | jsonBodyDirectArgument (typ : GoType)
  | stringBodyArgument
  | byteSliceBodyArgument
  | bodyReaderArgument
  | urlParamArgument (name : String)
  | contextArgument
  | queryParamArgument (name : String)
  | requiredQueryParamArgument (name : String)
  | postQueryParamArgument (name : String)
  | requiredPostQueryParamArgument (name : String)
  | cookieArgument (name : String)
  | requiredCookieArgument (name : String)
  | headerSetterArgument
  | cookieSetterArgument
  | responseWriterArgument
  | fullRequestArgument
  | asIntArgument (arg : Argument)
  | asByteSliceArgument (arg : Argument)
  | tagStructArgument (structType : GoType) (flags : Nat) (arguments : ArgFields)
  | tagStructDirectArgument (structType : GoType) (flags : Nat) (arguments : ArgFields)
  deriving DecidableEq, Repr

/-- The `arguments` slice built by `requestStruct`: one entry per struct
field, `askip` standing for the `nil` appended for an untagged field. -/
inductive ArgFields where
  | anil
  | askip (rest : ArgFields)
  | acons (a : Argument) (rest : ArgFields)
  deriving DecidableEq, Repr

end

def flagArgument : Nat := 1
def flagParsesQuery : Nat := 2
def flagResponseStatus : Nat := 4
def flagReadsRequestBody : Nat := 8
def flagWritesResponse : Nat := 16
def flagError : Nat := 32
def flagMiddleware : Nat := 64

/-- `endpointOptions.has`. -/
def hasFlag (e o : Nat) : Bool := e &&& o ≠ 0

/-- The `options()` method of each Argument implementation. -/
def Argument.options : Argument → Nat
  | .headerArgument _ => flagArgument
  | .requiredHeaderArgument _ => flagArgument
  | .jsonBodyArgument _ => flagArgument ||| flagReadsRequestBody
  | .jsonBodyDirectArgument _ => flagArgument ||| flagReadsRequestBody
  | .stringBodyArgument => flagArgument ||| flagReadsRequestBody
  | .byteSliceBodyArgument => flagArgument ||| flagReadsRequestBody
  | .bodyReaderArgument => flagArgument ||| flagReadsRequestBody
  | .urlParamArgument _ => flagArgument
  | .contextArgument => flagArgument
  | .queryParamArgument _ => flagArgument ||| flagParsesQuery
  | .requiredQueryParamArgument _ => flagArgument ||| flagParsesQuery
  | .postQueryParamArgument _ => flagArgument ||| flagParsesQuery
  | .requiredPostQueryParamArgument _ => flagArgument ||| flagParsesQuery
  | .cookieArgument _ => flagArgument
  | .requiredCookieArgument _ => flagArgument
  | .headerSetterArgument => flagArgument
  | .cookieSetterArgument => flagArgument
  | .responseWriterArgument => flagArgument ||| flagWritesResponse
  | .fullRequestArgument => flagArgument ||| flagReadsRequestBody
  | .asIntArgument arg => arg.options
  | .asByteSliceArgument arg => arg.options
  | .tagStructArgument _ flags _ => flags
  | .tagStructDirectArgument _ flags _ => flags

/-- The `checkArg` method of each Argument implementation (registration-time
type compatibility). -/
def Argument.checkArg : Argument → GoType → Except String Unit
  | .headerArgument _, arg =>
      if arg.kind = .stringK then .ok () else .error "expected a string type"
  | .requiredHeaderArgument _, arg =>
      if arg.kind = .stringK then .ok () else .error "expected a string type"
  | .jsonBodyArgument typ, arg =>
      if arg = .ptrT typ then .ok () else .error "invalid type"
  | .jsonBodyDirectArgument typ, arg =>
      if arg = typ then .ok () else .error "invalid type"
  | .stringBodyArgument, arg =>
      if arg.kind = .stringK then .ok () else .error "expected string type"
  | .byteSliceBodyArgument, arg =>
      if arg = .byteSliceT then .ok () else .error "expected a byte slice"
  | .bodyReaderArgument, arg =>
      if arg = .readerT then .ok () else .error "expected io.Reader interface"
  | .urlParamArgument _, arg =>
      if arg.kind = .stringK then .ok () else .error "expected a string type"
  | .contextArgument, arg =>
      if arg = .ctxT then .ok () else .error "expected context.Context"
  | .queryParamArgument _, arg =>
      if arg.kind = .stringK then .ok () else .error "expected a string type"
  | .requiredQueryParamArgument _, arg =>
      if arg.kind = .stringK then .ok () else .error "expected a string type"
  | .postQueryParamArgument _, arg =>
      if arg.kind = .stringK then .ok () else .error "expected a string type"
  | .requiredPostQueryParamArgument _, arg =>
      if arg.kind = .stringK then .ok () else .error "expected a string type"
  | .cookieArgument _, arg =>
      if arg.kind = .stringK then .ok () else .error "expected a string type"
  | .requiredCookieArgument _, arg =>
      if arg.kind = .stringK then .ok () else .error "expected a string type"
  | .headerSetterArgument, arg =>
      if arg = .headersT then .ok () else .error "argument\x27s type must be smartapi.Headers"
  | .cookieSetterArgument, arg =>
      if arg = .cookiesT then .ok () else .error "argument\x27s type must be smartapi.Cookies"
  | .responseWriterArgument, arg =>
      if arg = .responseWriterT then .ok () else .error "argument\x27s type must be http.ResponseWriter"
  | .fullRequestArgument, arg =>
      if arg = httpRequestType then .ok () else .error "argument\x27s type must be *http.Request"
  | .asIntArgument _, arg =>
      if arg = .intT then .ok () else .error "argument must be an int"
  | .asByteSliceArgument _, arg =>
      if arg = .byteSliceT then .ok () else .error "argument must be a byte slice"
  | .tagStructArgument typ _ _, arg =>
      match arg with
      | .ptrT elemT => if typ = elemT then .ok () else .error "invalid argument type"
      | _ => .error "argument must be a pointer"
  | .tagStructDirectArgument typ _ _, arg =>
      if typ = arg then .ok () else .error "invalid argument type"

/-- A runtime `reflect.Value` passed to a handler.  `vPtr` is a non-nil
pointer (`reflect.New` never yields nil); `vStruct` is a struct value with
one entry per field (`none` = zero value of an untagged field).  The sink
values (`vHeadersSink`, `vCookiesSink`, `vResponseWriter`, `vRequest`,
`vReader`, `vCtx`) are opaque capabilities. -/
inductive GoValue where
  | vString (s : String)
  | vInt (n : Int)
  | vBytes (b : String)
  | vReader
  | vCtx
  | vHeadersSink
  | vCookiesSink
  | vResponseWriter
  | vRequest
  | vPtr (v : GoValue)
  | vStruct (fields : List (Option GoValue))

/-- The string carried by a `reflect.Value` (`v.String()`); arguments wrapped
by `AsInt`/`AsByteSlice` always produce strings. -/
def GoValue.asString : GoValue → String
  | .vString s => s
  | _ => ""

mutual

/-- The `getValue` method of each Argument implementation (request-time
extraction).  `decode` is the external `encoding/json` decoder. -/
def Argument.getValue (a : Argument) (decode : GoType → String → Option GoValue)
    (r : HttpRequest) : Except GoError GoValue :=
  match a with
  | .headerArgument name => .ok (.vString (getFirst r.headers name))
  | .requiredHeaderArgument name =>
      let value := getFirst r.headers name
      if value.length = 0 then
        .error (apiError 400 ("missing required header " ++ name))
      else .ok (.vString value)
  | .jsonBodyArgument typ =>
      match decode typ r.body with
      | none => .error (apiError 400 "cannot unmarshal request")
      | some v => .ok (.vPtr v)
  | .jsonBodyDirectArgument typ =>
      match decode typ r.body with
      | none => .error (apiError 400 "cannot unmarshal request")
      | some v => .ok v
  | .stringBodyArgument =>
      if r.bodyReadError then .error (apiError 400 "cannot read request")
      else .ok (.vString r.body)
  | .byteSliceBodyArgument =>
      if r.bodyReadError then .error (apiError 400 "cannot read request")
      else .ok (.vBytes r.body)
  | .bodyReaderArgument => .ok .vReader
  | .urlParamArgument name => .ok (.vString (getFirst r.urlParams name))
  | .contextArgument => .ok .vCtx
  | .queryParamArgument name => .ok (.vString (getFirst r.form name))
  | .requiredQueryParamArgument name =>
      let value := getFirst r.form name
      if value.length = 0 then
        .error (apiError 400 ("missing required query param " ++ name))
      else .ok (.vString value)
  | .postQueryParamArgument name => .ok (.vString (getFirst r.postForm name))
  | .requiredPostQueryParamArgument name =>
      let value := getFirst r.postForm name
      if value.length = 0 then
        .error (apiError 400 ("missing required post query param " ++ name))
      else .ok (.vString value)
  | .cookieArgument name =>
      match findCookie r name with
      | none => .ok (.vString "")
      | some v => .ok (.vString v)
  | .requiredCookieArgument name =>
      match findCookie r name with
      | none => .error (apiError 400 ("missing cookie " ++ name))
      | some v => .ok (.vString v)
  | .headerSetterArgument => .ok .vHeadersSink
  | .cookieSetterArgument => .ok .vCookiesSink
  | .responseWriterArgument => .ok .vResponseWriter
  | .fullRequestArgument => .ok .vRequest
  | .asIntArgument arg =>
      match arg.getValue decode r with
      | .error e => .error e
      | .ok v =>
          match (v.asString).toInt? with
          | none => .error (apiError 400 "integer parse error")
          | some n => .ok (.vInt n)
  | .asByteSliceArgument arg =>
      match arg.getValue decode r with
      | .error e => .error e
      | .ok v => .ok (.vBytes v.asString)
  | .tagStructArgument _ _ fields =>
      match constructStruct fields decode r with
      | .error e => .error e
      | .ok vs => .ok (.vPtr (.vStruct vs))
  | .tagStructDirectArgument _ _ fields =>
      match constructStruct fields decode r with
      | .error e => .error e
      | .ok vs => .ok (.vStruct vs)

/-- `constructStruct`: fill each tagged field by its argument's `getValue`,
skipping `nil` (untagged) fields; the first failure aborts. -/
def constructStruct (fields : ArgFields) (decode : GoType → String → Option GoValue)
    (r : HttpRequest) : Except GoError (List (Option GoValue)) :=
  match fields with
  | .anil => .ok []
  | .askip rest =>
      match constructStruct rest decode r with
      | .error e => .error e
      | .ok vs => .ok (none :: vs)
  | .acons a rest =>
      match a.getValue decode r with
      | .error e => .error e
      | .ok v =>
          match constructStruct rest decode r with
          | .error e => .error e
          | .ok vs => .ok (some v :: vs)

end

/-- The per-request endpoint data consumed by the dispatchers: the declared
success status and the parses-query flag. -/
structure EndpointData where
  returnStatus : Nat
  query : Bool
  deriving DecidableEq, Repr

/-- `getCallAttributes` (endpoint.go): parse the form eagerly when the
endpoint uses query parameters (failure → 400 "could not parse form"), then
resolve every argument in declared order, aborting on the first error. -/
def getCallAttributes (decode : GoType → String → Option GoValue)
    (query : Bool) (args : List Argument) (r : HttpRequest) :
    Except GoError (List GoValue) :=
  if query ∧ r.malformedForm then .error (apiError 400 "could not parse form")
  else args.mapM (fun a => a.getValue decode r)

/-- `errorOnlyHandler.handleRequest`: resolve arguments (failure → error
path), call the handler; a non-nil returned error takes the error path,
otherwise the declared status is written with no body. -/
def errorOnlyHandlerRun (decode : GoType → String → Option GoValue)
    (ep : EndpointData) (args : List Argument)
    (handler : List GoValue → Option GoError)
    (r : HttpRequest) (w : RespWriter) : RespWriter :=
  match getCallAttributes decode ep.query args r with
  | .error e => handleError w e
  | .ok attribs =>
      match handler attribs with
      | some e => handleError w e
      | none => w.writeHeader ep.returnStatus

/-- `stringErrorHandler.handleRequest`: resolve arguments, call the handler;
non-nil error → error path; empty string → status 204; otherwise the raw
string bytes are written (with no prior `WriteHeader` call). -/
def stringErrorHandlerRun (decode : GoType → String → Option GoValue)
    (ep : EndpointData) (args : List Argument)
    (handler : List GoValue → String × Option GoError)
    (r : HttpRequest) (w : RespWriter) : RespWriter :=
  match getCallAttributes decode ep.query args r with
  | .error e => handleError w e
  | .ok attribs =>
      let result := handler attribs
      match result.2 with
      | some e => handleError w e
      | none =>
          if result.1.length = 0 then w.writeHeader 204
          else w.write result.1

/-- `http.Header.Set(key, value)`: replaces any existing values under the
key with the single given value. -/
def headersSet (h : List (String × String)) (key value : String) :
    List (String × String) :=
  (h.filter (fun p => ¬ p.1 = key)) ++ [(key, value)]

/-- `cookieSetter.Add` (setters.go), with the cookie already serialized
(`c.String()`): the first cookie is set as the "Set-Cookie" header value;
later cookies are appended to the same header value after "; ". -/
def cookieSetterAdd (h : List (String × String)) (cookie : String) :
    List (String × String) :=
  let cookies := getFirst h "Set-Cookie"
  if cookies.length = 0 then headersSet h "Set-Cookie" cookie
  else headersSet h "Set-Cookie" (cookies ++ "; " ++ cookie)

/-- Split a struct tag `kind[=data]` at the first `=` (tagstruct.go
`parseArgument`). -/
def splitTag (tag : String) : String × String :=
  match tag.splitOn "=" with
  | [] => (tag, "")
  | [k] => (k, "")
  | k :: rest => (k, String.intercalate "=" rest)

mutual

/-- `getArgument` (tagstruct.go): resolve a tag kind to an Argument.  The
`as_int`/`as_byte_slice` tag kinds are not modelled (no claim involves
them); all other kinds of the revision matching arguments.go are.  In the
`request_struct` case for a non-pointer struct field, the Go code calls
`requestStruct(fieldType)` and repackages the result as a
`tagStructDirectArgument`; that call is inlined here (same semantics) so
the recursion is structural. -/
def getArgument (kind data : String) (fieldType : GoType) : Except String Argument :=
  if kind = "header" then .ok (.headerArgument data)
  else if kind = "r_header" then .ok (.requiredHeaderArgument data)
  else if kind = "json_body" then .ok (.jsonBodyDirectArgument fieldType)
  else if kind = "string_body" then .ok .stringBodyArgument
  else if kind = "byte_slice_body" then .ok .byteSliceBodyArgument
  else if kind = "body_reader" then .ok .bodyReaderArgument
  else if kind = "url_param" then .ok (.urlParamArgument data)
  else if kind = "context" then .ok .contextArgument
  else if kind = "query_param" then .ok (.queryParamArgument data)
  else if kind = "r_query_param" then .ok (.requiredQueryParamArgument data)
  else if kind = "post_query_param" then .ok (.postQueryParamArgument data)
  else if kind = "r_post_query_param" then .ok (.requiredPostQueryParamArgument data)
  else if kind = "cookie" then .ok (.cookieArgument data)
  else if kind = "response_headers" then .ok .headerSetterArgument
  else if kind = "response_cookies" then .ok .cookieSetterArgument
  else if kind = "response_writer" then .ok .responseWriterArgument
  else if kind = "request" then .ok .fullRequestArgument
  else if kind = "request_struct" then
    match fieldType with
    | .ptrT inner => requestStruct inner
    | .structT sname fl =>
        match requestStructFields fl with
        | .error e => .error e
        | .ok (flags, args, numReadsBody) =>
            if numReadsBody > 1 then
              .error "only one struct field can read request\x27s body"
            else .ok (.tagStructDirectArgument (.structT sname fl) flags args)
    | _ => .error "invalid type of request_struct"
  else .error "unsupported tag"
termination_by structural fieldType

/-- `requestStruct` (arguments.go): build the composite argument for a
tag-bound struct type; more than one body-reading field is a construction
error. -/
def requestStruct (structType : GoType) : Except String Argument :=
  match structType with
  | .structT sname fields =>
      match requestStructFields fields with
      | .error e => .error e
      | .ok (flags, args, numReadsBody) =>
          if numReadsBody > 1 then
            .error "only one struct field can read request\x27s body"
          else .ok (.tagStructArgument (.structT sname fields) flags args)
  | _ => .error "RequestStruct\x27s argument must be a structure"
termination_by structural structType

/-- The field loop of `requestStruct`: parse each tagged field's argument,
check it against the field type, accumulate the OR of the flags and the
count of body-reading fields; untagged fields contribute a `nil` slot. -/
def requestStructFields (fields : FieldList) : Except String (Nat × ArgFields × Nat) :=
  match fields with
  | .fnil => .ok (flagArgument, .anil, 0)
  | .fcons fname tag typ rest =>
      let tagStr := tag.getD ""
      if tagStr.length = 0 then
        match requestStructFields rest with
        | .error e => .error e
        | .ok (fl, args, n) => .ok (fl, .askip args, n)
      else
        match getArgument (splitTag tagStr).1 (splitTag tagStr).2 typ with
        | .error e => .error ("(struct field " ++ fname ++ ") " ++ e)
        | .ok fieldArg =>
            match fieldArg.checkArg typ with
            | .error e => .error ("(struct field " ++ fname ++ ") " ++ e)
            | .ok _ =>
                let fieldOpts := fieldArg.options
                match requestStructFields rest with
                | .error e => .error e
                | .ok (fl, args, n) =>
                    .ok (fl ||| fieldOpts, .acons fieldArg args,
                         n + (if hasFlag fieldOpts flagReadsRequestBody then 1 else 0))
termination_by structural fields

end

/-- `parseArgument` (tagstruct.go): split the tag and resolve it. -/
def parseArgument (tag : String) (fieldType : GoType) : Except String Argument :=
  getArgument (splitTag tag).1 (splitTag tag).2 fieldType

/-- An `EndpointParam` as stored in the declaration list: an argument, a
response-status override, middleware (opaque), or a construction error. -/
inductive EndpointParam where
  | argParam (a : Argument)
  | responseStatusArgument (status : Nat)
  | middlewareParam
  | errorEndpointParam (err : String)
  deriving DecidableEq, Repr

def EndpointParam.options : EndpointParam → Nat
  | .argParam a => a.options
  | .responseStatusArgument _ => flagResponseStatus
  | .middlewareParam => flagMiddleware
  | .errorEndpointParam _ => flagError

/-! Public provider constructors (the exported API of arguments.go). -/

def Header (name : String) : EndpointParam := .argParam (.headerArgument name)

def RequiredHeader (name : String) : EndpointParam := .argParam (.requiredHeaderArgument name)

def JSONBody (typ : GoType) : EndpointParam := .argParam (.jsonBodyArgument typ)

def JSONBodyDirect (typ : GoType) : EndpointParam := .argParam (.jsonBodyDirectArgument typ)

def StringBody : EndpointParam := .argParam .stringBodyArgument

def ByteSliceBody : EndpointParam := .argParam .byteSliceBodyArgument

def BodyReader : EndpointParam := .argParam .bodyReaderArgument

def URLParam (name : String) : EndpointParam := .argParam (.urlParamArgument name)

def Context : EndpointParam := .argParam .contextArgument

def QueryParam (name : String) : EndpointParam := .argParam (.queryParamArgument name)

def RequiredQueryParam (name : String) : EndpointParam :=
  .argParam (.requiredQueryParamArgument name)

def PostQueryParam (name : String) : EndpointParam :=
  .argParam (.postQueryParamArgument name)

def RequiredPostQueryParam (name : String) : EndpointParam :=
  .argParam (.requiredPostQueryParamArgument name)

def Cookie (name : String) : EndpointParam := .argParam (.cookieArgument name)

def RequiredCookie (name : String) : EndpointParam :=
  .argParam (.requiredCookieArgument name)

def ResponseHeaders : EndpointParam := .argParam .headerSetterArgument

def ResponseCookies : EndpointParam := .argParam .cookieSetterArgument

def ResponseWriter : EndpointParam := .argParam .responseWriterArgument

def Request : EndpointParam := .argParam .fullRequestArgument

def ResponseStatus (status : Nat) : EndpointParam := .responseStatusArgument status

def Middleware : EndpointParam := .middlewareParam

/-- `RequestStruct` (arguments.go): a construction failure becomes an
`errorEndpointParam` surfaced at registration. -/
def RequestStruct (typ : GoType) : EndpointParam :=
  match requestStruct typ with
  | .error e => .errorEndpointParam e
  | .ok a => .argParam a

/-- `RequestStructDirect` (arguments.go): like `RequestStruct` but the
resulting argument binds the struct value itself. -/
def RequestStructDirect (typ : GoType) : EndpointParam :=
  match requestStruct typ with
  | .error e => .errorEndpointParam e
  | .ok a =>
      match a with
      | .tagStructArgument t f args => .argParam (.tagStructDirectArgument t f args)
      | other => .argParam other

/-- `AsInt` (arguments.go).  (The Go code type-asserts `param.(Argument)`
after the flag check; only `argParam` can carry `flagArgument`, so the
non-`argParam` fallback arm is unreachable.) -/
def AsInt (param : EndpointParam) : EndpointParam :=
  if ¬ hasFlag param.options flagArgument then
    .errorEndpointParam "AsInt() requires an argument param"
  else
    match param with
    | .argParam a =>
        match a.checkArg .stringT with
        | .error _ => .errorEndpointParam "argument must accept a string"
        | .ok _ => .argParam (.asIntArgument a)
    | _ => .errorEndpointParam "AsInt() requires an argument param"

/-- `AsByteSlice` (arguments.go). -/
def AsByteSlice (param : EndpointParam) : EndpointParam :=
  if ¬ hasFlag param.options flagArgument then
    .errorEndpointParam "AsByteSlice() requires an argument param"
  else
    match param with
    | .argParam a =>
        match a.checkArg .stringT with
        | .error _ => .errorEndpointParam "argument must accept a string"
        | .ok _ => .argParam (.asByteSliceArgument a)
    | _ => .errorEndpointParam "AsByteSlice() requires an argument param"

/-- A handler value as inspected by `reflect`: whether it is a function,
its parameter types and its return types. -/
structure HandlerFn where
  kindIsFunc : Bool
  inTypes : List GoType
  outTypes : List GoType
  deriving DecidableEq, Repr

/-- The response-strategy classification produced by `checkHandler`
(endpoint.go handler types). -/
inductive HandlerClass where
  | noResponseHandler
  | errorOnlyHandler
  | stringErrorHandler
  | byteSliceErrorHandler
  | ptrErrorHandler
  | structErrorHandler
  deriving DecidableEq, Repr

/-- The per-argument loop of `checkHandler`: first failure is reported with
its 0-based index. -/
def checkArgsLoop : Nat → List GoType → List Argument → Except String Unit
  | _, [], _ => .ok ()
  | _, _ :: _, [] => .ok ()
  | i, t :: ts, a :: rest =>
      match a.checkArg t with
      | .error e => .error ("(argument " ++ toString i ++ ") " ++ e)
      | .ok _ => checkArgsLoop (i + 1) ts rest

/-- `checkHandler` (router.go): arity check, per-argument type check, then
return-shape classification.  A non-byte slice return falls through the Go
`switch` into the pointer/interface case. -/
def checkHandler (h : HandlerFn) (arguments : List Argument) (writesResponse : Bool) :
    Except String HandlerClass :=
  if h.kindIsFunc = false then .error "handler must be a function"
  else if h.inTypes.length ≠ arguments.length then
    .error "number of arguments of a function doesn\x27t match provided arguments"
  else
    match checkArgsLoop 0 h.inTypes arguments with
    | .error e => .error e
    | .ok _ =>
        match h.outTypes with
        | [] => .ok .noResponseHandler
        | [out0] =>
            if implementsError out0 then .ok .errorOnlyHandler
            else .error "expect an error type in return arguments"
        | [v, e] =>
            if writesResponse then .error "cannot write response and return response"
            else if ¬ implementsError e then
              .error "expect an error type in return arguments"
            else
              match v.kind with
              | .stringK => .ok .stringErrorHandler
              | .sliceK =>
                  if v = .byteSliceT then .ok .byteSliceErrorHandler
                  else .ok .ptrErrorHandler
              | .ptrK => .ok .ptrErrorHandler
              | .interfaceK => .ok .ptrErrorHandler
              | .structK => .ok .structErrorHandler
              | _ => .error "unsupported return type"
        | _ => .error "invalid number of return arguments"

/-- The handler-type assertion of `isLegacyHandler`: the value must be a
`func(http.ResponseWriter, *http.Request)` with no returns. -/
def legacySignature (h : HandlerFn) : Bool :=
  h.kindIsFunc ∧ h.inTypes = [.responseWriterT, httpRequestType] ∧ h.outTypes = []

/-- `isLegacyHandler` (router.go): exactly `ResponseWriter()` + `Request()`
with status 200, or no providers with status 0, and the legacy signature. -/
def isLegacyHandler (returnStatus : Nat) (args : List Argument) (h : HandlerFn) : Bool :=
  match args with
  | [a0, a1] =>
      a0 = .responseWriterArgument ∧ a1 = .fullRequestArgument ∧
        returnStatus = 200 ∧ legacySignature h
  | [] => returnStatus = 0 ∧ legacySignature h
  | _ => false

/-- The loop state of `routeNode.addEndpoint` over the declared params. -/
structure ScanAcc where
  returnStatus : Nat
  query : Bool
  writesResponse : Bool
  numReadsBody : Nat
  params : List Argument
  deriving DecidableEq, Repr

/-- One iteration of the param loop of `routeNode.addEndpoint` (router.go):
partition the declaration by flag into the accumulator.  (The Go type
assertions for `responseStatusArgument` only fire when the corresponding
flag is set, which only that type carries.) -/
def scanStep (acc : ScanAcc) (p : EndpointParam) : ScanAcc :=
  let flags := p.options
  let acc1 :=
    if hasFlag flags flagArgument then
      match p with
      | .argParam a => { acc with params := acc.params ++ [a] }
      | _ => acc
    else acc
  let acc2 := if hasFlag flags flagParsesQuery then { acc1 with query := true } else acc1
  let acc3 :=
    if hasFlag flags flagResponseStatus then
      match p with
      | .responseStatusArgument s => { acc2 with returnStatus := s }
      | _ => acc2
    else acc2
  let acc4 :=
    if hasFlag flags flagReadsRequestBody then
      { acc3 with numReadsBody := acc3.numReadsBody + 1 }
    else acc3
  if hasFlag flags flagWritesResponse then
    { acc4 with writesResponse := true,
                returnStatus := if acc4.returnStatus = 0 then 200 else acc4.returnStatus }
  else acc4

/-- The param loop of `routeNode.addEndpoint` (router.go): fold `scanStep`
over the declarations; a `flagError` param aborts immediately with its
error (its accumulator updates are discarded with the registration). -/
def scanParams (name : String) : Nat → ScanAcc → List EndpointParam →
    Except String ScanAcc
  | _, acc, [] => .ok acc
  | i, acc, p :: rest =>
      if hasFlag p.options flagError then
        match p with
        | .errorEndpointParam e =>
            .error ("endpoint " ++ name ++ ": (argument " ++ toString i ++ ") " ++ e)
        | _ => .error ("endpoint " ++ name ++ ": (argument " ++ toString i ++ ") ")
      else scanParams name (i + 1) (scanStep acc p) rest

/-- A registered endpoint record (the `endpoint` struct of server.go). -/
structure EndpointRec where
  name : String
  returnStatus : Nat
  query : Bool
  legacy : Bool
  cls : Option HandlerClass
  args : List Argument
  deriving DecidableEq, Repr

/-- `routeNode.addEndpoint` (router.go) on a fresh route node: scan the
params (an error param aborts), take the legacy passthrough when it
matches, otherwise default the status to 204, record a "only one argument
can read request\x27s body" error when more than one provider reads the
body, run `checkHandler`, and register the endpoint only when no error was
recorded. -/
def addEndpoint (name : String) (h : HandlerFn) (args : List EndpointParam) :
    Except (List String) EndpointRec :=
  match scanParams name 0 ⟨0, false, false, 0, []⟩ args with
  | .error e => .error [e]
  | .ok acc =>
      if isLegacyHandler acc.returnStatus acc.params h then
        .ok ⟨name, 0, false, true, none, []⟩
      else
        let returnStatus := if acc.returnStatus = 0 then 204 else acc.returnStatus
        let errs1 :=
          if acc.numReadsBody > 1 then
            ["endpoint " ++ name ++ ": only one argument can read request\x27s body"]
          else []
        match checkHandler h acc.params acc.writesResponse with
        | .error e => .error (errs1 ++ ["endpoint " ++ name ++ ": " ++ e])
        | .ok cls =>
            if errs1 ≠ [] then .error errs1
            else .ok ⟨name, returnStatus, acc.query, false, some cls, acc.params⟩

mutual

/-- A route scope (`routeNode`, router.go): accumulated registration
errors and nested sub-scopes.  (Endpoints and middleware are installed
infallibly and do not influence `Handler()`, so they are omitted.) -/
inductive RouteNode where
  | mk (errs : List String) (subs : SubRoutes)

/-- The `subRoutes` slice of a route node. -/
inductive SubRoutes where
  | nil
  | cons (pattern : String) (node : RouteNode) (rest : SubRoutes)

end

/-- Error aggregation of `routeNode.chiRouter`: the errors of one scope
joined with ", ". -/
def joinErrors : List String → String
  | [] => ""
  | e :: rest => rest.foldl (fun acc x => acc ++ ", " ++ x) e

mutual

/-- `routeNode.chiRouter` (router.go): fail with the scope's joined errors
when any were accumulated, otherwise recurse into the sub-scopes in order,
propagating the first failure. -/
def chiRouter : RouteNode → Except String Unit
  | .mk errs subs =>
      if errs.isEmpty then chiRouterSubs subs
      else .error (joinErrors errs)

def chiRouterSubs : SubRoutes → Except String Unit
  | .nil => .ok ()
  | .cons _ node rest =>
      match chiRouter node with
      | .error e => .error e
      | .ok _ => chiRouterSubs rest

end

/-- `Server.Handler` (server.go): build the chi router over the root scope;
an error yields no handler. -/
def serverHandler (root : RouteNode) : Except String Unit :=
  chiRouter root

mutual

/-- Whether any scope in the tree accumulated a registration error. -/
def nodeHasErrors : RouteNode → Bool
  | .mk errs subs => ¬ errs.isEmpty ∨ subsHaveErrors subs

def subsHaveErrors : SubRoutes → Bool
  | .nil => false
  | .cons _ node rest => nodeHasErrors node ∨ subsHaveErrors rest

end

/-- A caller-side provider declaration: one call to a public constructor.
This is the syntax the registration claims quantify over. -/
inductive Decl where
  | headerD (name : String)
  | requiredHeaderD (name : String)
  | jsonBodyD (typ : GoType)
  | jsonBodyDirectD (typ : GoType)
  | stringBodyD
  | byteSliceBodyD
  | bodyReaderD
  | urlParamD (name : String)
  | contextD
  | queryParamD (name : String)
  | requiredQueryParamD (name : String)
  | postQueryParamD (name : String)
  | requiredPostQueryParamD (name : String)
  | cookieD (name : String)
  | requiredCookieD (name : String)
  | responseHeadersD
  | responseCookiesD
  | responseWriterD
  | requestD
  | responseStatusD (status : Nat)
  | middlewareD
  | requestStructD (typ : GoType)
  | requestStructDirectD (typ : GoType)
  | asIntD (inner : Decl)
  | asByteSliceD (inner : Decl)

/-- Elaborate a declaration through the corresponding public constructor. -/
def Decl.build : Decl → EndpointParam
  | .headerD name => Header name
  | .requiredHeaderD name => RequiredHeader name
  | .jsonBodyD typ => JSONBody typ
  | .jsonBodyDirectD typ => JSONBodyDirect typ
  | .stringBodyD => StringBody
  | .byteSliceBodyD => ByteSliceBody
  | .bodyReaderD => BodyReader
  | .urlParamD name => URLParam name
  | .contextD => Context
  | .queryParamD name => QueryParam name
  | .requiredQueryParamD name => RequiredQueryParam name
  | .postQueryParamD name => PostQueryParam name
  | .requiredPostQueryParamD name => RequiredPostQueryParam name
  | .cookieD name => Cookie name
  | .requiredCookieD name => RequiredCookie name
  | .responseHeadersD => ResponseHeaders
  | .responseCookiesD => ResponseCookies
  | .responseWriterD => ResponseWriter
  | .requestD => Request
  | .responseStatusD status => ResponseStatus status
  | .middlewareD => Middleware
  | .requestStructD typ => RequestStruct typ
  | .requestStructDirectD typ => RequestStructDirect typ
  | .asIntD inner => AsInt inner.build
  | .asByteSliceD inner => AsByteSlice inner.build

mutual

/-- Number of body-reading providers reachable from a struct type's tags
(transitively through `request_struct` fields). -/
def typeBodyCount : GoType → Nat
  | .structT _ fields => fieldsBodyCount fields
  | _ => 0
termination_by structural t => t

def fieldsBodyCount : FieldList → Nat
  | .fnil => 0
  | .fcons _ tag typ rest =>
      let tagStr := tag.getD ""
      (if tagStr.length = 0 then 0 else tagBodyCount (splitTag tagStr).1 typ)
        + fieldsBodyCount rest
termination_by structural fl => fl

/-- Number of body-reading providers a tag kind denotes (1 for the body
tags; for `request_struct`, the transitive count of the field type). -/
def tagBodyCount (kind : String) (typ : GoType) : Nat :=
  if kind = "json_body" ∨ kind = "string_body" ∨ kind = "byte_slice_body"
      ∨ kind = "body_reader" ∨ kind = "request" then 1
  else if kind = "request_struct" then
    match typ with
    | .ptrT inner => typeBodyCount inner
    | .structT _ fl => fieldsBodyCount fl
    | _ => 0
  else 0
termination_by structural typ

end

/-- Number of body-reading providers a declaration denotes, counting the
fields of tag-bound structs transitively. -/
def Decl.bodyCount : Decl → Nat
  | .jsonBodyD _ => 1
  | .jsonBodyDirectD _ => 1
  | .stringBodyD => 1
  | .byteSliceBodyD => 1
  | .bodyReaderD => 1
  | .requestD => 1
  | .requestStructD typ => typeBodyCount typ
  | .requestStructDirectD typ => typeBodyCount typ
  | .asIntD inner => inner.bodyCount
  | .asByteSliceD inner => inner.bodyCount
  | _ => 0

/-! Concrete fixtures used by witness and counterexample theorems. -/

/-- A request with no headers, cookies, form values or body. -/
def emptyRequest : HttpRequest := ⟨[], [], [], [], [], "", false, false⟩

/-- A request carrying the cookie `C` with an empty value. -/
def emptyCookieRequest : HttpRequest := ⟨[], [("C", "")], [], [], [], "", false, false⟩

/-- A decoder that only accepts the body "42" (as the integer 42). -/
def sampleDecode : GoType → String → Option GoValue :=
  fun _ body => if body = "42" then some (.vInt 42) else none

/-- A request whose body is the valid sample document. -/
def validJsonRequest : HttpRequest := ⟨[], [], [], [], [], "42", false, false⟩

/-- A request whose body is truncated JSON for the sample decoder. -/
def invalidJsonRequest : HttpRequest := ⟨[], [], [], [], [], "4", false, false⟩

/-- The positional argument carried by an endpoint param, if any (the
`a.(Argument)` extraction of the scan loop). -/
def paramArg : EndpointParam → Option Argument
  | .argParam a => some a
  | _ => none

/-- `"" ++ s = s` for strings (writing into a fresh response body). -/
theorem string_empty_append (s : String) : "" ++ s = s := by
  cases s with
  | mk data => rfl

/-- After `Header.Set(k, v)`, looking up `k` finds exactly `(k, v)`. -/
theorem headersSet_find (l : List (String × String)) (k v : String) :
    ((headersSet l k v).find? (fun p => p.1 = k)) = some (k, v) := by
  induction l with
  | nil => simp [headersSet]
  | cons a t ih =>
      by_cases hk : a.1 = k
      · simp [headersSet, List.filter_cons, hk] at ih ⊢
      · simp [headersSet, List.filter_cons, List.find?, hk] at ih ⊢

/-- C2. For every error value reaching the error-handling path
(`handleError`): an error satisfying the ApiError capability produces its
own status as the HTTP status line and the JSON object
`{"status": <status>, "reason": <reason>}` plus a single newline as the
body; any other error produces status 500 with body
`{"status":500,"reason":"unknown"}` plus newline, independently of the
error's message (so the message never appears in the response). -/
theorem handleError_wire_format (status : Nat) (reason msg : String) :
    handleError RespWriter.empty (GoError.api ⟨status, reason⟩)
      = ⟨some status, errorResponseBody status reason⟩ ∧
    handleError RespWriter.empty (GoError.plain msg)
      = ⟨some 500, errorResponseBody 500 "unknown"⟩ := by
  constructor <;>
    simp [handleError, RespWriter.empty, RespWriter.writeHeader, RespWriter.write,
      string_empty_append]

/-- C10. Adding response cookies through the `ResponseCookies` sink
concatenates all cookies into one "Set-Cookie" header value joined by
"; ": a second `Add` appends to the existing value, and exactly one
Set-Cookie header entry exists afterwards. -/
theorem cookieSetter_add_single_header (h : List (String × String)) (c1 c2 : String)
    (hne : c1.length ≠ 0) :
    getFirst (cookieSetterAdd (cookieSetterAdd [] c1) c2) "Set-Cookie"
        = c1 ++ "; " ++ c2 ∧
    ((cookieSetterAdd (cookieSetterAdd [] c1) c2).countP
        (fun p => p.1 == "Set-Cookie")) = 1 ∧
    ((getFirst h "Set-Cookie").length ≠ 0 →
      getFirst (cookieSetterAdd h c2) "Set-Cookie"
        = getFirst h "Set-Cookie" ++ "; " ++ c2) := by
  refine ⟨?_, ?_, ?_⟩
  · simp [cookieSetterAdd, headersSet, getFirst, hne]
  · simp [cookieSetterAdd, headersSet, getFirst, hne, List.countP_cons]
  · intro hx
    simp only [cookieSetterAdd, hx, if_neg, ite_false]
    simp [getFirst, headersSet_find]

/-- Resolving a single-provider endpoint whose provider fails: the error is
returned. -/
theorem getCallAttributes_single_err
    (decode : GoType → String → Option GoValue) (q : Bool) (a : Argument)
    (r : HttpRequest) (e : GoError)
    (hq : ¬ (q = true ∧ r.malformedForm = true))
    (he : a.getValue decode r = .error e) :
    getCallAttributes decode q [a] r = .error e := by
  simp [getCallAttributes, hq, List.mapM, List.mapM.loop, he, bind, Except.bind]

/-- Resolving a single-provider endpoint whose provider succeeds. -/
theorem getCallAttributes_single_ok
    (decode : GoType → String → Option GoValue) (q : Bool) (a : Argument)
    (r : HttpRequest) (v : GoValue)
    (hq : ¬ (q = true ∧ r.malformedForm = true))
    (hv : a.getValue decode r = .ok v) :
    getCallAttributes decode q [a] r = .ok [v] := by
  simp [getCallAttributes, hq, List.mapM, List.mapM.loop, hv, bind, Except.bind, pure, Except.pure]

/-- C9. For every "optional" string-sourced provider (Header, Cookie,
QueryParam, PostQueryParam) and every request lacking the named field,
extraction succeeds with the empty string (no error) and the handler is
still invoked (the dispatch reduces to applying the handler to `""`). -/
theorem optional_providers_missing_field
    (decode : GoType → String → Option GoValue) (rs : Nat) (name : String)
    (r : HttpRequest) (h : List GoValue → Option GoError) :
    (r.headers.find? (fun p => p.1 = name) = none →
      (Argument.headerArgument name).getValue decode r = .ok (.vString "") ∧
      errorOnlyHandlerRun decode ⟨rs, false⟩ [.headerArgument name] h r RespWriter.empty
        = match h [.vString ""] with
          | some e => handleError RespWriter.empty e
          | none => RespWriter.empty.writeHeader rs) ∧
    (r.cookies.find? (fun p => p.1 = name) = none →
      (Argument.cookieArgument name).getValue decode r = .ok (.vString "") ∧
      errorOnlyHandlerRun decode ⟨rs, false⟩ [.cookieArgument name] h r RespWriter.empty
        = match h [.vString ""] with
          | some e => handleError RespWriter.empty e
          | none => RespWriter.empty.writeHeader rs) ∧
    (r.form.find? (fun p => p.1 = name) = none → r.malformedForm = false →
      (Argument.queryParamArgument name).getValue decode r = .ok (.vString "") ∧
      errorOnlyHandlerRun decode ⟨rs, true⟩ [.queryParamArgument name] h r RespWriter.empty
        = match h [.vString ""] with
          | some e => handleError RespWriter.empty e
          | none => RespWriter.empty.writeHeader rs) ∧
    (r.postForm.find? (fun p => p.1 = name) = none → r.malformedForm = false →
      (Argument.postQueryParamArgument name).getValue decode r = .ok (.vString "") ∧
      errorOnlyHandlerRun decode ⟨rs, true⟩ [.postQueryParamArgument name] h r RespWriter.empty
        = match h [.vString ""] with
          | some e => handleError RespWriter.empty e
          | none => RespWriter.empty.writeHeader rs) := by
  refine ⟨?_, ?_, ?_, ?_⟩
  · intro hf
    have hv : (Argument.headerArgument name).getValue decode r = .ok (.vString "") := by
      simp [Argument.getValue, getFirst, hf]
    refine ⟨hv, ?_⟩
    have hc := getCallAttributes_single_ok decode false _ r _ (by simp) hv
    simp [errorOnlyHandlerRun, hc]
  · intro hf
    have hv : (Argument.cookieArgument name).getValue decode r = .ok (.vString "") := by
      simp [Argument.getValue, findCookie, hf]
    refine ⟨hv, ?_⟩
    have hc := getCallAttributes_single_ok decode false _ r _ (by simp) hv
    simp [errorOnlyHandlerRun, hc]
  · intro hf hm
    have hv : (Argument.queryParamArgument name).getValue decode r = .ok (.vString "") := by
      simp [Argument.getValue, getFirst, hf]
    refine ⟨hv, ?_⟩
    have hc := getCallAttributes_single_ok decode true _ r _ (by simp [hm]) hv
    simp [errorOnlyHandlerRun, hc]
  · intro hf hm
    have hv : (Argument.postQueryParamArgument name).getValue decode r = .ok (.vString "") := by
      simp [Argument.getValue, getFirst, hf]
    refine ⟨hv, ?_⟩
    have hc := getCallAttributes_single_ok decode true _ r _ (by simp [hm]) hv
    simp [errorOnlyHandlerRun, hc]

/-- Witness for C9 at a concrete request lacking all fields. -/
theorem optional_providers_missing_field_witness :
    (Argument.headerArgument "X-Test1").getValue sampleDecode emptyRequest
        = .ok (.vString "") ∧
    errorOnlyHandlerRun sampleDecode ⟨204, false⟩ [.headerArgument "X-Test1"]
        (fun _ => none) emptyRequest RespWriter.empty
      = RespWriter.empty.writeHeader 204 ∧
    (Argument.cookieArgument "C").getValue sampleDecode emptyRequest
        = .ok (.vString "") := by
  have h := optional_providers_missing_field sampleDecode 204 "X-Test1" emptyRequest
    (fun _ => none)
  have hck := optional_providers_missing_field sampleDecode 204 "C" emptyRequest
    (fun _ => none)
  have h1 := h.1 (by rfl)
  have h2 := hck.2.1 (by rfl)
  exact ⟨h1.1, h1.2, h2.1⟩

/-- C8.  A `JSONBody(S)` endpoint: when the request body decodes (as type
S) to a value v, the handler is invoked with a non-nil pointer to v
(`vPtr v`); when the body does not decode, the handler is not invoked (the
result does not depend on it) and the response is exactly status 400 with
body `{"status":400,"reason":"cannot unmarshal request"}` plus newline. -/
theorem jsonBody_roundtrip
    (decode : GoType → String → Option GoValue) (S : GoType) (rs : Nat)
    (r : HttpRequest) (h : List GoValue → Option GoError) (v : GoValue) :
    (decode S r.body = some v →
      errorOnlyHandlerRun decode ⟨rs, false⟩ [.jsonBodyArgument S] h r RespWriter.empty
        = match h [.vPtr v] with
          | some e => handleError RespWriter.empty e
          | none => RespWriter.empty.writeHeader rs) ∧
    (decode S r.body = none →
      errorOnlyHandlerRun decode ⟨rs, false⟩ [.jsonBodyArgument S] h r RespWriter.empty
        = ⟨some 400, errorResponseBody 400 "cannot unmarshal request"⟩) := by
  constructor
  · intro hdec
    have hv : (Argument.jsonBodyArgument S).getValue decode r = .ok (.vPtr v) := by
      simp [Argument.getValue, hdec]
    have hc := getCallAttributes_single_ok decode false _ r _ (by simp) hv
    simp [errorOnlyHandlerRun, hc]
  · intro hdec
    have hv : (Argument.jsonBodyArgument S).getValue decode r
        = .error (apiError 400 "cannot unmarshal request") := by
      simp [Argument.getValue, hdec]
    have hc := getCallAttributes_single_err decode false _ r _ (by simp) hv
    simp [errorOnlyHandlerRun, hc, handleError, apiError, RespWriter.empty,
      RespWriter.writeHeader, RespWriter.write, string_empty_append]

/-- Witness for C8: the sample decoder on a valid and an invalid body. -/
theorem jsonBody_roundtrip_witness :
    errorOnlyHandlerRun sampleDecode ⟨204, false⟩ [.jsonBodyArgument .intT]
        (fun _ => none) validJsonRequest RespWriter.empty
      = RespWriter.empty.writeHeader 204 ∧
    errorOnlyHandlerRun sampleDecode ⟨204, false⟩ [.jsonBodyArgument .intT]
        (fun _ => none) invalidJsonRequest RespWriter.empty
      = ⟨some 400, errorResponseBody 400 "cannot unmarshal request"⟩ := by
  have hok := (jsonBody_roundtrip sampleDecode .intT 204 validJsonRequest
    (fun _ => none) (.vInt 42)).1 (by rfl)
  have hbad := (jsonBody_roundtrip sampleDecode .intT 204 invalidJsonRequest
    (fun _ => none) (.vInt 42)).2 (by rfl)
  exact ⟨hok, hbad⟩

/-- C1 (amended).  For a String-strategy endpoint whose arguments resolve:
a non-nil returned error takes the error-handling path; a nil error with an
empty string yields status 204 and an empty body; a nil error with a
non-empty string yields the raw string bytes (no trailing newline) with
status 200 — the implicit status of writing a body without an explicit
status write — regardless of the endpoint's declared status. -/
theorem stringStrategy_response
    (decode : GoType → String → Option GoValue) (ep : EndpointData)
    (args : List Argument) (r : HttpRequest) (attribs : List GoValue)
    (h : List GoValue → String × Option GoError)
    (hres : getCallAttributes decode ep.query args r = .ok attribs) :
    (∀ s e, h attribs = (s, some e) →
      stringErrorHandlerRun decode ep args h r RespWriter.empty
        = handleError RespWriter.empty e) ∧
    (h attribs = ("", none) →
      stringErrorHandlerRun decode ep args h r RespWriter.empty
        = ⟨some 204, ""⟩) ∧
    (∀ s, h attribs = (s, none) → s.length ≠ 0 →
      stringErrorHandlerRun decode ep args h r RespWriter.empty
        = ⟨some 200, s⟩) := by
  refine ⟨?_, ?_, ?_⟩
  · intro s e hval
    simp [stringErrorHandlerRun, hres, hval]
  · intro hval
    simp [stringErrorHandlerRun, hres, hval, RespWriter.empty, RespWriter.writeHeader]
  · intro s hval hlen
    simp [stringErrorHandlerRun, hres, hval, hlen, RespWriter.empty,
      RespWriter.writeHeader, RespWriter.write, string_empty_append]

/-- Counterexample to C1 as stated: with an explicitly declared status 202
(`ResponseStatus(202)`), a String-strategy handler returning
`("hello", nil)` produces status 200 (the implicit write status), not the
declared 202 — `stringErrorHandler.handleRequest` writes the body without
ever consulting `endpoint.returnStatus`. -/
theorem stringStrategy_declared_status_cex :
    stringErrorHandlerRun sampleDecode ⟨202, false⟩ []
        (fun _ => ("hello", none)) emptyRequest RespWriter.empty
      = ⟨some 200, "hello"⟩ ∧ (202 : Nat) ≠ 200 := by
  exact ⟨by decide, by decide⟩

/-- Witness for C1 (amended) at a concrete endpoint. -/
theorem stringStrategy_response_witness :
    stringErrorHandlerRun sampleDecode ⟨202, false⟩ []
        (fun _ => ("hello", none)) emptyRequest RespWriter.empty
      = ⟨some 200, "hello"⟩ ∧
    stringErrorHandlerRun sampleDecode ⟨202, false⟩ []
        (fun _ => ("", none)) emptyRequest RespWriter.empty
      = ⟨some 204, ""⟩ := by
  have h1 := (stringStrategy_response sampleDecode ⟨202, false⟩ [] emptyRequest []
    (fun _ => ("hello", none)) (by rfl)).2.2 "hello" rfl (by decide)
  have h2 := (stringStrategy_response sampleDecode ⟨202, false⟩ [] emptyRequest []
    (fun _ => ("", none)) (by rfl)).2.1 rfl
  exact ⟨h1, h2⟩

/-- C3 (amended).  Required header / query param / post query param
providers reject a request whose named field is absent or empty with
status 400 and reason `missing required <kind> <name>`; `RequiredCookie`
rejects only an absent cookie, with reason `missing cookie <name>` (no
"required"), and a present-but-empty cookie value is passed through to the
handler as the empty string. -/
theorem required_providers_missing
    (decode : GoType → String → Option GoValue) (rs : Nat) (name : String)
    (r : HttpRequest) (h : List GoValue → Option GoError) :
    (getFirst r.headers name = "" →
      errorOnlyHandlerRun decode ⟨rs, false⟩ [.requiredHeaderArgument name] h r
          RespWriter.empty
        = ⟨some 400, errorResponseBody 400 ("missing required header " ++ name)⟩) ∧
    (r.malformedForm = false → getFirst r.form name = "" →
      errorOnlyHandlerRun decode ⟨rs, true⟩ [.requiredQueryParamArgument name] h r
          RespWriter.empty
        = ⟨some 400, errorResponseBody 400 ("missing required query param " ++ name)⟩) ∧
    (r.malformedForm = false → getFirst r.postForm name = "" →
      errorOnlyHandlerRun decode ⟨rs, true⟩ [.requiredPostQueryParamArgument name] h r
          RespWriter.empty
        = ⟨some 400, errorResponseBody 400 ("missing required post query param " ++ name)⟩) ∧
    (findCookie r name = none →
      errorOnlyHandlerRun decode ⟨rs, false⟩ [.requiredCookieArgument name] h r
          RespWriter.empty
        = ⟨some 400, errorResponseBody 400 ("missing cookie " ++ name)⟩) ∧
    (findCookie r name = some "" →
      errorOnlyHandlerRun decode ⟨rs, false⟩ [.requiredCookieArgument name] h r
          RespWriter.empty
        = match h [.vString ""] with
          | some e => handleError RespWriter.empty e
          | none => RespWriter.empty.writeHeader rs) := by
  refine ⟨?_, ?_, ?_, ?_, ?_⟩
  · intro hf
    have hv : (Argument.requiredHeaderArgument name).getValue decode r
        = .error (apiError 400 ("missing required header " ++ name)) := by
      simp [Argument.getValue, hf]
    have hc := getCallAttributes_single_err decode false _ r _ (by simp) hv
    simp [errorOnlyHandlerRun, hc, handleError, apiError, RespWriter.empty,
      RespWriter.writeHeader, RespWriter.write, string_empty_append]
  · intro hm hf
    have hv : (Argument.requiredQueryParamArgument name).getValue decode r
        = .error (apiError 400 ("missing required query param " ++ name)) := by
      simp [Argument.getValue, hf]
    have hc := getCallAttributes_single_err decode true _ r _ (by simp [hm]) hv
    simp [errorOnlyHandlerRun, hc, handleError, apiError, RespWriter.empty,
      RespWriter.writeHeader, RespWriter.write, string_empty_append]
  · intro hm hf
    have hv : (Argument.requiredPostQueryParamArgument name).getValue decode r
        = .error (apiError 400 ("missing required post query param " ++ name)) := by
      simp [Argument.getValue, hf]
    have hc := getCallAttributes_single_err decode true _ r _ (by simp [hm]) hv
    simp [errorOnlyHandlerRun, hc, handleError, apiError, RespWriter.empty,
      RespWriter.writeHeader, RespWriter.write, string_empty_append]
  · intro hf
    have hv : (Argument.requiredCookieArgument name).getValue decode r
        = .error (apiError 400 ("missing cookie " ++ name)) := by
      simp [Argument.getValue, hf]
    have hc := getCallAttributes_single_err decode false _ r _ (by simp) hv
    simp [errorOnlyHandlerRun, hc, handleError, apiError, RespWriter.empty,
      RespWriter.writeHeader, RespWriter.write, string_empty_append]
  · intro hf
    have hv : (Argument.requiredCookieArgument name).getValue decode r
        = .ok (.vString "") := by
      simp [Argument.getValue, hf]
    have hc := getCallAttributes_single_ok decode false _ r _ (by simp) hv
    simp [errorOnlyHandlerRun, hc]

/-- Counterexample to C3 as stated: a request with no cookie `C` on a
`RequiredCookie("C")` endpoint is rejected with reason "missing cookie C",
not the claimed "missing required cookie C". -/
theorem requiredCookie_reason_cex :
    errorOnlyHandlerRun sampleDecode ⟨204, false⟩ [.requiredCookieArgument "C"]
        (fun _ => none) emptyRequest RespWriter.empty
      = ⟨some 400, errorResponseBody 400 "missing cookie C"⟩ ∧
    errorResponseBody 400 "missing cookie C"
      ≠ errorResponseBody 400 "missing required cookie C" := by
  exact ⟨by decide, by decide⟩

/-- Witness for C3 (amended): missing header and empty-valued cookie at
concrete requests. -/
theorem required_providers_missing_witness :
    errorOnlyHandlerRun sampleDecode ⟨204, false⟩ [.requiredHeaderArgument "X-Test1"]
        (fun _ => none) emptyRequest RespWriter.empty
      = ⟨some 400, errorResponseBody 400 "missing required header X-Test1"⟩ ∧
    errorOnlyHandlerRun sampleDecode ⟨204, false⟩ [.requiredCookieArgument "C"]
        (fun _ => none) emptyCookieRequest RespWriter.empty
      = RespWriter.empty.writeHeader 204 := by
  have h1 := (required_providers_missing sampleDecode 204 "X-Test1" emptyRequest
    (fun _ => none)).1 (by rfl)
  have h2 := (required_providers_missing sampleDecode 204 "C" emptyCookieRequest
    (fun _ => none)).2.2.2.2 (by rfl)
  exact ⟨h1, h2⟩

/-- Witness for C10 at two concrete serialized cookies. -/
theorem cookieSetter_add_single_header_witness :
    getFirst (cookieSetterAdd (cookieSetterAdd [] "a=1") "b=2") "Set-Cookie"
        = "a=1; b=2" ∧
    ((cookieSetterAdd (cookieSetterAdd [] "a=1") "b=2").countP
        (fun p => p.1 == "Set-Cookie")) = 1 := by
  have h := cookieSetter_add_single_header [] "a=1" "b=2" (by decide)
  exact ⟨h.1, h.2.1⟩

mutual

/-- `chiRouter` succeeds exactly when no scope in the tree accumulated a
registration error. -/
theorem chiRouter_ok_iff : ∀ t : RouteNode,
    (chiRouter t = .ok ()) ↔ nodeHasErrors t = false
  | .mk errs subs => by
      cases herrs : errs.isEmpty with
      | true =>
          have hsub := chiRouterSubs_ok_iff subs
          simp [chiRouter, nodeHasErrors, herrs, hsub]
      | false =>
          simp [chiRouter, nodeHasErrors, herrs]

theorem chiRouterSubs_ok_iff : ∀ s : SubRoutes,
    (chiRouterSubs s = .ok ()) ↔ subsHaveErrors s = false
  | .nil => by simp [chiRouterSubs, subsHaveErrors]
  | .cons p node rest => by
      have hn := chiRouter_ok_iff node
      have hr := chiRouterSubs_ok_iff rest
      cases hres : chiRouter node with
      | error e =>
          simp [chiRouterSubs, subsHaveErrors, hres]
          simp [hres] at hn
          simp [hn]
      | ok u =>
          cases u
          simp [chiRouterSubs, subsHaveErrors, hres]
          simp [hres] at hn
          simp [hn, hr]

end

/-- C7.  `Handler()` refuses to produce a servable handler exactly when a
registration error was accumulated anywhere in the route tree (including
nested sub-scopes); when the root scope itself holds errors, the returned
error joins them with ", "; with no accumulated errors anywhere a handler
is produced with a nil error. -/
theorem handler_refuses_on_errors (root : RouteNode) (e : String)
    (es : List String) (subs : SubRoutes) :
    ((serverHandler root = .ok ()) ↔ nodeHasErrors root = false) ∧
    serverHandler (.mk (e :: es) subs) = .error (joinErrors (e :: es)) := by
  constructor
  · exact chiRouter_ok_iff root
  · simp [serverHandler, chiRouter]

/-- Witness for C7: a nested tree with one erroneous sub-scope, and a clean
tree. -/
theorem handler_refuses_on_errors_witness :
    (serverHandler (.mk [] (.cons "/sub" (.mk ["endpoint /t: boom"] .nil) .nil))
        = .ok ()) = False ∧
    serverHandler (.mk [] .nil) = .ok () ∧
    serverHandler (.mk ["e1", "e2"] .nil) = .error "e1, e2" := by
  refine ⟨?_, ?_, ?_⟩
  · have h := (handler_refuses_on_errors
      (.mk [] (.cons "/sub" (.mk ["endpoint /t: boom"] .nil) .nil)) "x" [] .nil).1
    simp [h]
    decide
  · have h := (handler_refuses_on_errors (.mk [] .nil) "x" [] .nil).1
    rw [h]
    decide
  · have h := (handler_refuses_on_errors (.mk [] .nil) "e1" ["e2"] .nil).2
    rw [h]
    rfl

/-- Bitwise-or of naturals is zero exactly when both are. -/
theorem or_eq_zero_iff_nat (a b : Nat) : a ||| b = 0 ↔ a = 0 ∧ b = 0 := by
  constructor
  · intro h
    have hi : ∀ i, a.testBit i = false ∧ b.testBit i = false := by
      intro i
      have h2 := congrArg (fun n => Nat.testBit n i) h
      simp [Nat.testBit_lor] at h2
      exact h2
    exact ⟨Nat.zero_of_testBit_eq_false (fun i => (hi i).1),
           Nat.zero_of_testBit_eq_false (fun i => (hi i).2)⟩
  · rintro ⟨rfl, rfl⟩
    rfl

/-- `has` distributes over the OR-accumulation of flags. -/
theorem hasFlag_or (x y f : Nat) :
    hasFlag (x ||| y) f = (hasFlag x f || hasFlag y f) := by
  simp only [hasFlag, Nat.and_distrib_right]
  by_cases h1 : x &&& f = 0 <;> by_cases h2 : y &&& f = 0 <;>
    simp [h1, h2, or_eq_zero_iff_nat]

/-- Unfolding lemma for `getArgument` with the field type still symbolic
(the compiled recursion matches on the field type first). -/
theorem getArgument_unfold (kind data : String) (t : GoType) :
    getArgument kind data t =
      (if kind = "header" then .ok (.headerArgument data)
      else if kind = "r_header" then .ok (.requiredHeaderArgument data)
      else if kind = "json_body" then .ok (.jsonBodyDirectArgument t)
      else if kind = "string_body" then .ok .stringBodyArgument
      else if kind = "byte_slice_body" then .ok .byteSliceBodyArgument
      else if kind = "body_reader" then .ok .bodyReaderArgument
      else if kind = "url_param" then .ok (.urlParamArgument data)
      else if kind = "context" then .ok .contextArgument
      else if kind = "query_param" then .ok (.queryParamArgument data)
      else if kind = "r_query_param" then .ok (.requiredQueryParamArgument data)
      else if kind = "post_query_param" then .ok (.postQueryParamArgument data)
      else if kind = "r_post_query_param" then .ok (.requiredPostQueryParamArgument data)
      else if kind = "cookie" then .ok (.cookieArgument data)
      else if kind = "response_headers" then .ok .headerSetterArgument
      else if kind = "response_cookies" then .ok .cookieSetterArgument
      else if kind = "response_writer" then .ok .responseWriterArgument
      else if kind = "request" then .ok .fullRequestArgument
      else if kind = "request_struct" then
        match t with
        | .ptrT inner => requestStruct inner
        | .structT sname fl =>
            match requestStructFields fl with
            | .error e => .error e
            | .ok (flags, args, numReadsBody) =>
                if numReadsBody > 1 then
                  .error "only one struct field can read request\x27s body"
                else .ok (.tagStructDirectArgument (.structT sname fl) flags args)
        | _ => .error "invalid type of request_struct"
      else .error "unsupported tag" : Except String Argument) := by
  cases t <;> rfl

/-- Unfolding lemma for `tagBodyCount` with the field type symbolic. -/
theorem tagBodyCount_unfold (kind : String) (t : GoType) :
    tagBodyCount kind t =
      (if kind = "json_body" ∨ kind = "string_body" ∨ kind = "byte_slice_body"
          ∨ kind = "body_reader" ∨ kind = "request" then 1
      else if kind = "request_struct" then
        match t with
        | .ptrT inner => typeBodyCount inner
        | .structT _ fl => fieldsBodyCount fl
        | _ => 0
      else 0) := by
  cases t <;> rfl


/-- Combined structural invariant of tag parsing, proved by induction on a
size bound: a successfully parsed argument (`getArgument`), struct argument
(`requestStruct`) or field loop result (`requestStructFields`) carries
`flagArgument`, never `flagError`, and carries `flagReadsRequestBody`
exactly when the parsed declaration denotes (transitively) one body-reading
provider — and never more than one per parsed tag or struct. -/
theorem structBody_aux (N : Nat) :
    (∀ (kind data : String) (t : GoType) (a : Argument), sizeOf t ≤ N →
        getArgument kind data t = .ok a →
        hasFlag a.options flagArgument = true ∧
        hasFlag a.options flagError = false ∧
        (hasFlag a.options flagReadsRequestBody = true ↔ tagBodyCount kind t = 1) ∧
        tagBodyCount kind t ≤ 1) ∧
    (∀ (t : GoType) (a : Argument), sizeOf t ≤ N →
        requestStruct t = .ok a →
        hasFlag a.options flagArgument = true ∧
        hasFlag a.options flagError = false ∧
        (hasFlag a.options flagReadsRequestBody = true ↔ typeBodyCount t = 1) ∧
        typeBodyCount t ≤ 1) ∧
    (∀ (fl : FieldList) (flags : Nat) (args : ArgFields) (n : Nat), sizeOf fl ≤ N →
        requestStructFields fl = .ok (flags, args, n) →
        hasFlag flags flagArgument = true ∧
        hasFlag flags flagError = false ∧
        (hasFlag flags flagReadsRequestBody = true ↔ 1 ≤ n) ∧
        n = fieldsBodyCount fl) := by
  induction N with
  | zero =>
      refine ⟨?_, ?_, ?_⟩
      · intro kind data t a hle _
        exact absurd hle (by cases t <;> simp)
      · intro t a hle _
        exact absurd hle (by cases t <;> simp)
      · intro fl flags args n hle _
        exact absurd hle (by cases fl <;> simp)
  | succ N ih =>
      obtain ⟨ihga, ihrs, ihfl⟩ := ih
      refine ⟨?_, ?_, ?_⟩
      · intro kind data t a hle h
        by_cases h1 : kind = "header"
        · subst h1; rw [getArgument_unfold] at h; simp at h; subst h
          refine ⟨?_, ?_, ?_, ?_⟩ <;> simp [Argument.options, tagBodyCount_unfold, hasFlag, flagArgument, flagParsesQuery, flagResponseStatus, flagReadsRequestBody, flagWritesResponse, flagError] <;> try decide
        by_cases h2 : kind = "r_header"
        · subst h2; rw [getArgument_unfold] at h; simp at h; subst h
          refine ⟨?_, ?_, ?_, ?_⟩ <;> simp [Argument.options, tagBodyCount_unfold, hasFlag, flagArgument, flagParsesQuery, flagResponseStatus, flagReadsRequestBody, flagWritesResponse, flagError] <;> try decide
        by_cases h3 : kind = "json_body"
        · subst h3; rw [getArgument_unfold] at h; simp at h; subst h
          refine ⟨?_, ?_, ?_, ?_⟩ <;> simp [Argument.options, tagBodyCount_unfold, hasFlag, flagArgument, flagParsesQuery, flagResponseStatus, flagReadsRequestBody, flagWritesResponse, flagError] <;> try decide
        by_cases h4 : kind = "string_body"
        · subst h4; rw [getArgument_unfold] at h; simp at h; subst h
          refine ⟨?_, ?_, ?_, ?_⟩ <;> simp [Argument.options, tagBodyCount_unfold, hasFlag, flagArgument, flagParsesQuery, flagResponseStatus, flagReadsRequestBody, flagWritesResponse, flagError] <;> try decide
        by_cases h5 : kind = "byte_slice_body"
        · subst h5; rw [getArgument_unfold] at h; simp at h; subst h
          refine ⟨?_, ?_, ?_, ?_⟩ <;> simp [Argument.options, tagBodyCount_unfold, hasFlag, flagArgument, flagParsesQuery, flagResponseStatus, flagReadsRequestBody, flagWritesResponse, flagError] <;> try decide
        by_cases h6 : kind = "body_reader"
        · subst h6; rw [getArgument_unfold] at h; simp at h; subst h
          refine ⟨?_, ?_, ?_, ?_⟩ <;> simp [Argument.options, tagBodyCount_unfold, hasFlag, flagArgument, flagParsesQuery, flagResponseStatus, flagReadsRequestBody, flagWritesResponse, flagError] <;> try decide
        by_cases h7 : kind = "url_param"
        · subst h7; rw [getArgument_unfold] at h; simp at h; subst h
          refine ⟨?_, ?_, ?_, ?_⟩ <;> simp [Argument.options, tagBodyCount_unfold, hasFlag, flagArgument, flagParsesQuery, flagResponseStatus, flagReadsRequestBody, flagWritesResponse, flagError] <;> try decide
        by_cases h8 : kind = "context"
        · subst h8; rw [getArgument_unfold] at h; simp at h; subst h
          refine ⟨?_, ?_, ?_, ?_⟩ <;> simp [Argument.options, tagBodyCount_unfold, hasFlag, flagArgument, flagParsesQuery, flagResponseStatus, flagReadsRequestBody, flagWritesResponse, flagError] <;> try decide
        by_cases h9 : kind = "query_param"
        · subst h9; rw [getArgument_unfold] at h; simp at h; subst h
          refine ⟨?_, ?_, ?_, ?_⟩ <;> simp [Argument.options, tagBodyCount_unfold, hasFlag, flagArgument, flagParsesQuery, flagResponseStatus, flagReadsRequestBody, flagWritesResponse, flagError] <;> try decide
        by_cases h10 : kind = "r_query_param"
        · subst h10; rw [getArgument_unfold] at h; simp at h; subst h
          refine ⟨?_, ?_, ?_, ?_⟩ <;> simp [Argument.options, tagBodyCount_unfold, hasFlag, flagArgument, flagParsesQuery, flagResponseStatus, flagReadsRequestBody, flagWritesResponse, flagError] <;> try decide
        by_cases h11 : kind = "post_query_param"
        · subst h11; rw [getArgument_unfold] at h; simp at h; subst h
          refine ⟨?_, ?_, ?_, ?_⟩ <;> simp [Argument.options, tagBodyCount_unfold, hasFlag, flagArgument, flagParsesQuery, flagResponseStatus, flagReadsRequestBody, flagWritesResponse, flagError] <;> try decide
        by_cases h12 : kind = "r_post_query_param"
        · subst h12; rw [getArgument_unfold] at h; simp at h; subst h
          refine ⟨?_, ?_, ?_, ?_⟩ <;> simp [Argument.options, tagBodyCount_unfold, hasFlag, flagArgument, flagParsesQuery, flagResponseStatus, flagReadsRequestBody, flagWritesResponse, flagError] <;> try decide
        by_cases h13 : kind = "cookie"
        · subst h13; rw [getArgument_unfold] at h; simp at h; subst h
          refine ⟨?_, ?_, ?_, ?_⟩ <;> simp [Argument.options, tagBodyCount_unfold, hasFlag, flagArgument, flagParsesQuery, flagResponseStatus, flagReadsRequestBody, flagWritesResponse, flagError] <;> try decide
        by_cases h14 : kind = "response_headers"
        · subst h14; rw [getArgument_unfold] at h; simp at h; subst h
          refine ⟨?_, ?_, ?_, ?_⟩ <;> simp [Argument.options, tagBodyCount_unfold, hasFlag, flagArgument, flagParsesQuery, flagResponseStatus, flagReadsRequestBody, flagWritesResponse, flagError] <;> try decide
        by_cases h15 : kind = "response_cookies"
        · subst h15; rw [getArgument_unfold] at h; simp at h; subst h
          refine ⟨?_, ?_, ?_, ?_⟩ <;> simp [Argument.options, tagBodyCount_unfold, hasFlag, flagArgument, flagParsesQuery, flagResponseStatus, flagReadsRequestBody, flagWritesResponse, flagError] <;> try decide
        by_cases h16 : kind = "response_writer"
        · subst h16; rw [getArgument_unfold] at h; simp at h; subst h
          refine ⟨?_, ?_, ?_, ?_⟩ <;> simp [Argument.options, tagBodyCount_unfold, hasFlag, flagArgument, flagParsesQuery, flagResponseStatus, flagReadsRequestBody, flagWritesResponse, flagError] <;> try decide
        by_cases h17 : kind = "request"
        · subst h17; rw [getArgument_unfold] at h; simp at h; subst h
          refine ⟨?_, ?_, ?_, ?_⟩ <;> simp [Argument.options, tagBodyCount_unfold, hasFlag, flagArgument, flagParsesQuery, flagResponseStatus, flagReadsRequestBody, flagWritesResponse, flagError] <;> try decide
        by_cases h18 : kind = "request_struct"
        · subst h18
          rw [getArgument_unfold] at h
          simp only [reduceIte, String.reduceEq] at h
          have hbc : ∀ t1 : GoType, tagBodyCount "request_struct" t1
              = (match t1 with
                 | .ptrT inner => typeBodyCount inner
                 | .structT _ fl => fieldsBodyCount fl
                 | _ => 0) := by
            intro t1
            rw [tagBodyCount_unfold]
            simp
          cases t with
          | ptrT inner =>
              dsimp only [] at h
              have hsz : sizeOf inner ≤ N := by
                simp at hle
                omega
              have ihx := ihrs inner a hsz h
              rw [hbc]
              exact ihx
          | structT sname fl =>
              dsimp only [] at h
              have hsz : sizeOf fl ≤ N := by
                simp at hle
                omega
              cases hf : requestStructFields fl with
              | error e => rw [hf] at h; exact Except.noConfusion h
              | ok triple =>
                  obtain ⟨flags, args, n⟩ := triple
                  rw [hf] at h
                  by_cases hn : n > 1
                  · simp [hn] at h
                  · simp [hn] at h
                    subst h
                    have ihx := ihfl fl flags args n hsz hf
                    rw [hbc]
                    simp only [Argument.options]
                    refine ⟨ihx.1, ihx.2.1, ?_, ?_⟩
                    · rw [ihx.2.2.1, ← ihx.2.2.2]
                      omega
                    · rw [← ihx.2.2.2]
                      omega
          | stringT => exact Except.noConfusion h
          | intT => exact Except.noConfusion h
          | byteSliceT => exact Except.noConfusion h
          | sliceT e => exact Except.noConfusion h
          | readerT => exact Except.noConfusion h
          | ctxT => exact Except.noConfusion h
          | responseWriterT => exact Except.noConfusion h
          | headersT => exact Except.noConfusion h
          | cookiesT => exact Except.noConfusion h
          | errorT => exact Except.noConfusion h
        · rw [getArgument_unfold] at h
          simp only [h1, h2, h3, h4, h5, h6, h7, h8, h9, h10, h11, h12,
            h13, h14, h15, h16, h17, h18, reduceIte] at h
          exact Except.noConfusion h
      · intro t a hle h
        cases t with
        | structT sname fl =>
            have hru : requestStruct (.structT sname fl)
                = (match requestStructFields fl with
                   | .error e => .error e
                   | .ok (flags, args, numReadsBody) =>
                       if numReadsBody > 1 then
                         .error "only one struct field can read request\x27s body"
                       else .ok (.tagStructArgument (.structT sname fl) flags args)) := rfl
            rw [hru] at h
            have hsz : sizeOf fl ≤ N := by
              simp at hle
              omega
            cases hf : requestStructFields fl with
            | error e => rw [hf] at h; exact Except.noConfusion h
            | ok triple =>
                obtain ⟨flags, args, n⟩ := triple
                rw [hf] at h
                by_cases hn : n > 1
                · simp [hn] at h
                · simp [hn] at h
                  have ihx := ihfl fl flags args n hsz hf
                  subst h
                  simp only [Argument.options, typeBodyCount]
                  refine ⟨ihx.1, ihx.2.1, ?_, ?_⟩
                  · rw [ihx.2.2.1, ← ihx.2.2.2]
                    omega
                  · rw [← ihx.2.2.2]
                    omega
        | stringT => exact Except.noConfusion h
        | intT => exact Except.noConfusion h
        | byteSliceT => exact Except.noConfusion h
        | sliceT e => exact Except.noConfusion h
        | readerT => exact Except.noConfusion h
        | ctxT => exact Except.noConfusion h
        | responseWriterT => exact Except.noConfusion h
        | headersT => exact Except.noConfusion h
        | cookiesT => exact Except.noConfusion h
        | errorT => exact Except.noConfusion h
        | ptrT inner => exact Except.noConfusion h
      · intro fl flags args n hle h
        cases fl with
        | fnil =>
            simp only [requestStructFields] at h
            simp at h
            obtain ⟨rfl, _, rfl⟩ := h
            refine ⟨by decide, by decide,
              by simp [hasFlag, flagArgument, flagReadsRequestBody],
              by simp [fieldsBodyCount]⟩
        | fcons fname tag typ rest =>
            have hszr : sizeOf rest ≤ N := by
              simp at hle
              omega
            have hszt : sizeOf typ ≤ N := by
              simp at hle
              omega
            simp only [requestStructFields] at h
            by_cases htag : (tag.getD "").length = 0
            · rw [if_pos htag] at h
              cases hr : requestStructFields rest with
              | error e => rw [hr] at h; exact Except.noConfusion h
              | ok triple =>
                  obtain ⟨fl1, args1, n1⟩ := triple
                  rw [hr] at h
                  simp at h
                  obtain ⟨rfl, _, rfl⟩ := h
                  have ihx := ihfl rest fl1 args1 n1 hszr hr
                  refine ⟨ihx.1, ihx.2.1, ihx.2.2.1, ?_⟩
                  rw [fieldsBodyCount, if_pos htag, ihx.2.2.2]
                  omega
            · rw [if_neg htag] at h
              cases hga : getArgument (splitTag (tag.getD "")).1 (splitTag (tag.getD "")).2 typ with
              | error e => rw [hga] at h; exact Except.noConfusion h
              | ok fieldArg =>
                  rw [hga] at h
                  dsimp only [] at h
                  cases hca : fieldArg.checkArg typ with
                  | error e => rw [hca] at h; exact Except.noConfusion h
                  | ok u =>
                      cases u
                      rw [hca] at h
                      dsimp only [] at h
                      cases hr : requestStructFields rest with
                      | error e => rw [hr] at h; exact Except.noConfusion h
                      | ok triple =>
                          obtain ⟨fl1, args1, n1⟩ := triple
                          rw [hr] at h
                          simp at h
                          obtain ⟨rfl, _, rfl⟩ := h
                          have iha := ihga (splitTag (tag.getD "")).1
                            (splitTag (tag.getD "")).2 typ fieldArg hszt hga
                          have ihr := ihfl rest fl1 args1 n1 hszr hr
                          have hcnt : (if hasFlag fieldArg.options flagReadsRequestBody then 1 else 0)
                              = tagBodyCount (splitTag (tag.getD "")).1 typ := by
                            cases hb : hasFlag fieldArg.options flagReadsRequestBody with
                            | true => simp [iha.2.2.1.mp hb]
                            | false =>
                                have hne1 : ¬ tagBodyCount (splitTag (tag.getD "")).1 typ = 1 := by
                                  intro hc
                                  have := iha.2.2.1.mpr hc
                                  rw [hb] at this
                                  exact Bool.noConfusion this
                                have hle2 := iha.2.2.2
                                simp
                                omega
                          refine ⟨?_, ?_, ?_, ?_⟩
                          · rw [hasFlag_or, ihr.1]
                            simp
                          · rw [hasFlag_or, ihr.2.1, iha.2.1]
                            simp
                          · rw [hasFlag_or]
                            cases hbf : hasFlag fieldArg.options flagReadsRequestBody with
                            | true =>
                                simp [hbf]
                                try omega
                            | false =>
                                simp [hbf]
                                try rw [ihr.2.2.1]
                                try exact ihr.2.2.1
                          · rw [fieldsBodyCount, if_neg htag, ← hcnt, ihr.2.2.2]
                            omega

/-- Specialization of `structBody_aux` to `getArgument`. -/
theorem getArgument_flags (kind data : String) (t : GoType) (a : Argument)
    (h : getArgument kind data t = .ok a) :
    hasFlag a.options flagArgument = true ∧
    hasFlag a.options flagError = false ∧
    (hasFlag a.options flagReadsRequestBody = true ↔ tagBodyCount kind t = 1) ∧
    tagBodyCount kind t ≤ 1 :=
  (structBody_aux (sizeOf t)).1 kind data t a (Nat.le_refl _) h

/-- Specialization of `structBody_aux` to `requestStruct`. -/
theorem requestStruct_flags (t : GoType) (a : Argument)
    (h : requestStruct t = .ok a) :
    hasFlag a.options flagArgument = true ∧
    hasFlag a.options flagError = false ∧
    (hasFlag a.options flagReadsRequestBody = true ↔ typeBodyCount t = 1) ∧
    typeBodyCount t ≤ 1 :=
  (structBody_aux (sizeOf t)).2.1 t a (Nat.le_refl _) h

/-- Specialization of `structBody_aux` to the field loop. -/
theorem requestStructFields_flags (fl : FieldList) (flags : Nat) (args : ArgFields)
    (n : Nat) (h : requestStructFields fl = .ok (flags, args, n)) :
    hasFlag flags flagArgument = true ∧
    hasFlag flags flagError = false ∧
    (hasFlag flags flagReadsRequestBody = true ↔ 1 ≤ n) ∧
    n = fieldsBodyCount fl :=
  (structBody_aux (sizeOf fl)).2.2 fl flags args n (Nat.le_refl _) h

/-- Field characterization of one scan step: only a body-flagged param
bumps the counter, only an argument-flagged param is appended, and the
return status is bumped to 200 by a writes-response param (when still
unset) unless an explicit `ResponseStatus` sets it. -/
theorem scanStep_fields (acc : ScanAcc) (p : EndpointParam) :
    (scanStep acc p).numReadsBody = acc.numReadsBody
      + (if hasFlag p.options flagReadsRequestBody then 1 else 0) ∧
    (scanStep acc p).params = (if hasFlag p.options flagArgument then
        (match p with | .argParam a => acc.params ++ [a] | _ => acc.params)
      else acc.params) ∧
    ((∀ s, p ≠ .responseStatusArgument s) →
      (scanStep acc p).returnStatus
        = (if hasFlag p.options flagWritesResponse = true ∧ acc.returnStatus = 0 then 200
           else acc.returnStatus)) := by
  cases p with
  | argParam a =>
      by_cases b1 : hasFlag a.options flagArgument <;>
      by_cases b2 : hasFlag a.options flagParsesQuery <;>
      by_cases b3 : hasFlag a.options flagResponseStatus <;>
      by_cases b4 : hasFlag a.options flagReadsRequestBody <;>
      by_cases b5 : hasFlag a.options flagWritesResponse <;>
        simp [scanStep, EndpointParam.options, b1, b2, b3, b4, b5]
  | responseStatusArgument s =>
      refine ⟨?_, ?_, ?_⟩
      · simp +decide [scanStep, EndpointParam.options, hasFlag, flagResponseStatus,
          flagReadsRequestBody, flagArgument, flagParsesQuery, flagWritesResponse]
      · simp +decide [scanStep, EndpointParam.options, hasFlag, flagResponseStatus,
          flagReadsRequestBody, flagArgument, flagParsesQuery, flagWritesResponse]
      · intro hns
        exact absurd rfl (hns s)
  | middlewareParam =>
      refine ⟨?_, ?_, ?_⟩ <;>
        simp +decide [scanStep, EndpointParam.options, hasFlag, flagMiddleware,
          flagReadsRequestBody, flagArgument, flagParsesQuery, flagWritesResponse,
          flagResponseStatus]
  | errorEndpointParam e =>
      refine ⟨?_, ?_, ?_⟩ <;>
        simp +decide [scanStep, EndpointParam.options, hasFlag, flagError,
          flagReadsRequestBody, flagArgument, flagParsesQuery, flagWritesResponse,
          flagResponseStatus]

/-- The scan loop over error-free declarations: it succeeds, counts the
body-flagged params, collects the argument params in order, and computes
the default-status evolution. -/
theorem scanParams_ok (name : String) :
    ∀ (l : List EndpointParam) (i : Nat) (acc : ScanAcc),
    (∀ p ∈ l, hasFlag p.options flagError = false) →
    ∃ acc2, scanParams name i acc l = .ok acc2 ∧
      acc2.numReadsBody = acc.numReadsBody
        + l.countP (fun p => hasFlag p.options flagReadsRequestBody) ∧
      ((∀ p ∈ l, (∃ a, p = .argParam a) ↔ hasFlag p.options flagArgument = true) →
        acc2.params = acc.params ++ l.filterMap paramArg) ∧
      ((∀ p ∈ l, ∀ s, p ≠ .responseStatusArgument s) →
        acc2.returnStatus = (if acc.returnStatus = 0
            ∧ l.any (fun p => hasFlag p.options flagWritesResponse) = true then 200
          else acc.returnStatus)) := by
  intro l
  induction l with
  | nil =>
      intro i acc _
      refine ⟨acc, rfl, by simp, by simp, ?_⟩
      intro _
      simp
  | cons p rest ih =>
      intro i acc hfe
      have hpe : hasFlag p.options flagError = false := hfe p (by simp)
      have hrest : ∀ q ∈ rest, hasFlag q.options flagError = false :=
        fun q hq => hfe q (by simp [hq])
      obtain ⟨acc2, hscan, hnum, hpar, hrs⟩ := ih (i + 1) (scanStep acc p) hrest
      refine ⟨acc2, ?_, ?_, ?_, ?_⟩
      · simp only [scanParams, hpe]
        simp
        exact hscan
      · rw [hnum, (scanStep_fields acc p).1, List.countP_cons]
        omega
      · intro hq
        have hq1 := hq p (by simp)
        have hrest2 : ∀ q ∈ rest, (∃ a, q = .argParam a) ↔ hasFlag q.options flagArgument = true :=
          fun q hqq => hq q (by simp [hqq])
        rw [hpar hrest2, (scanStep_fields acc p).2.1]
        cases p with
        | argParam a =>
            have hfa : hasFlag (EndpointParam.argParam a).options flagArgument = true :=
              hq1.mp ⟨a, rfl⟩
            simp [hfa, paramArg]
        | responseStatusArgument s =>
            have hnofa : ¬ hasFlag (EndpointParam.responseStatusArgument s).options flagArgument = true := by
              intro hc
              obtain ⟨a, ha⟩ := hq1.mpr hc
              exact EndpointParam.noConfusion ha
            simp [hnofa, paramArg]
        | middlewareParam =>
            have hnofa : ¬ hasFlag (EndpointParam.middlewareParam).options flagArgument = true := by
              intro hc
              obtain ⟨a, ha⟩ := hq1.mpr hc
              exact EndpointParam.noConfusion ha
            simp [hnofa, paramArg]
        | errorEndpointParam e =>
            have hnofa : ¬ hasFlag (EndpointParam.errorEndpointParam e).options flagArgument = true := by
              intro hc
              obtain ⟨a, ha⟩ := hq1.mpr hc
              exact EndpointParam.noConfusion ha
            simp [hnofa, paramArg]
      · intro hns
        have hns1 := hns p (by simp)
        have hrest2 : ∀ q ∈ rest, ∀ s, q ≠ .responseStatusArgument s :=
          fun q hqq => hns q (by simp [hqq])
        rw [hrs hrest2, (scanStep_fields acc p).2.2 hns1]
        by_cases bw : hasFlag p.options flagWritesResponse = true <;>
          by_cases b0 : acc.returnStatus = 0 <;>
          by_cases br : rest.any (fun q => hasFlag q.options flagWritesResponse) = true <;>
          simp [bw, b0, br]

/-- The scan loop aborts with an error as soon as any declaration carries
`flagError`. -/
theorem scanParams_error (name : String) :
    ∀ (l : List EndpointParam) (i : Nat) (acc : ScanAcc),
    (∃ p ∈ l, hasFlag p.options flagError = true) →
    ∃ msg, scanParams name i acc l = .error msg := by
  intro l
  induction l with
  | nil =>
      intro i acc hex
      obtain ⟨p, hp, _⟩ := hex
      exact absurd hp (List.not_mem_nil p)
  | cons p rest ih =>
      intro i acc hex
      by_cases hpe : hasFlag p.options flagError = true
      · cases p with
        | errorEndpointParam e =>
            refine ⟨"endpoint " ++ name ++ ": (argument " ++ toString i ++ ") " ++ e, ?_⟩
            simp [scanParams, hpe]
        | argParam a =>
            refine ⟨"endpoint " ++ name ++ ": (argument " ++ toString i ++ ") ", ?_⟩
            simp [scanParams, hpe]
        | responseStatusArgument s =>
            refine ⟨"endpoint " ++ name ++ ": (argument " ++ toString i ++ ") ", ?_⟩
            simp [scanParams, hpe]
        | middlewareParam =>
            refine ⟨"endpoint " ++ name ++ ": (argument " ++ toString i ++ ") ", ?_⟩
            simp [scanParams, hpe]
      · have hrest : ∃ q ∈ rest, hasFlag q.options flagError = true := by
          obtain ⟨q, hq, hqe⟩ := hex
          rcases List.mem_cons.mp hq with rfl | hq2
          · exact absurd hqe hpe
          · exact ⟨q, hq2, hqe⟩
        obtain ⟨msg, hmsg⟩ := ih (i + 1) (scanStep acc p) hrest
        refine ⟨msg, ?_⟩
        simp only [scanParams, hpe]
        simp
        exact hmsg

/-- A declaration that elaborates without a construction error yields a
param that never carries `flagError`, is an argument param exactly when
flagged as one, and carries `flagReadsRequestBody` exactly when it denotes
one (transitive) body reader — never more than one. -/
theorem declBuild_flags (d : Decl) (hne : ∀ e, d.build ≠ .errorEndpointParam e) :
    hasFlag d.build.options flagError = false ∧
    ((∃ a, d.build = .argParam a) ↔ hasFlag d.build.options flagArgument = true) ∧
    (hasFlag d.build.options flagReadsRequestBody = true ↔ d.bodyCount = 1) ∧
    d.bodyCount ≤ 1 := by
  induction d with
  | headerD name =>
      refine ⟨?_, ?_, ?_, ?_⟩ <;>
        simp +decide [Decl.build, Header, Decl.bodyCount, EndpointParam.options,
          Argument.options, hasFlag, flagArgument, flagParsesQuery, flagResponseStatus,
          flagReadsRequestBody, flagWritesResponse, flagError]
  | requiredHeaderD name =>
      refine ⟨?_, ?_, ?_, ?_⟩ <;>
        simp +decide [Decl.build, RequiredHeader, Decl.bodyCount, EndpointParam.options,
          Argument.options, hasFlag, flagArgument, flagParsesQuery, flagResponseStatus,
          flagReadsRequestBody, flagWritesResponse, flagError]
  | jsonBodyD typ =>
      refine ⟨?_, ?_, ?_, ?_⟩ <;>
        simp +decide [Decl.build, JSONBody, Decl.bodyCount, EndpointParam.options,
          Argument.options, hasFlag, flagArgument, flagParsesQuery, flagResponseStatus,
          flagReadsRequestBody, flagWritesResponse, flagError]
  | jsonBodyDirectD typ =>
      refine ⟨?_, ?_, ?_, ?_⟩ <;>
        simp +decide [Decl.build, JSONBodyDirect, Decl.bodyCount, EndpointParam.options,
          Argument.options, hasFlag, flagArgument, flagParsesQuery, flagResponseStatus,
          flagReadsRequestBody, flagWritesResponse, flagError]
  | stringBodyD =>
      refine ⟨?_, ?_, ?_, ?_⟩ <;>
        simp +decide [Decl.build, StringBody, Decl.bodyCount, EndpointParam.options,
          Argument.options, hasFlag, flagArgument, flagParsesQuery, flagResponseStatus,
          flagReadsRequestBody, flagWritesResponse, flagError]
  | byteSliceBodyD =>
      refine ⟨?_, ?_, ?_, ?_⟩ <;>
        simp +decide [Decl.build, ByteSliceBody, Decl.bodyCount, EndpointParam.options,
          Argument.options, hasFlag, flagArgument, flagParsesQuery, flagResponseStatus,
          flagReadsRequestBody, flagWritesResponse, flagError]
  | bodyReaderD =>
      refine ⟨?_, ?_, ?_, ?_⟩ <;>
        simp +decide [Decl.build, BodyReader, Decl.bodyCount, EndpointParam.options,
          Argument.options, hasFlag, flagArgument, flagParsesQuery, flagResponseStatus,
          flagReadsRequestBody, flagWritesResponse, flagError]
  | urlParamD name =>
      refine ⟨?_, ?_, ?_, ?_⟩ <;>
        simp +decide [Decl.build, URLParam, Decl.bodyCount, EndpointParam.options,
          Argument.options, hasFlag, flagArgument, flagParsesQuery, flagResponseStatus,
          flagReadsRequestBody, flagWritesResponse, flagError]
  | contextD =>
      refine ⟨?_, ?_, ?_, ?_⟩ <;>
        simp +decide [Decl.build, Context, Decl.bodyCount, EndpointParam.options,
          Argument.options, hasFlag, flagArgument, flagParsesQuery, flagResponseStatus,
          flagReadsRequestBody, flagWritesResponse, flagError]
  | queryParamD name =>
      refine ⟨?_, ?_, ?_, ?_⟩ <;>
        simp +decide [Decl.build, QueryParam, Decl.bodyCount, EndpointParam.options,
          Argument.options, hasFlag, flagArgument, flagParsesQuery, flagResponseStatus,
          flagReadsRequestBody, flagWritesResponse, flagError]
  | requiredQueryParamD name =>
      refine ⟨?_, ?_, ?_, ?_⟩ <;>
        simp +decide [Decl.build, RequiredQueryParam, Decl.bodyCount, EndpointParam.options,
          Argument.options, hasFlag, flagArgument, flagParsesQuery, flagResponseStatus,
          flagReadsRequestBody, flagWritesResponse, flagError]
  | postQueryParamD name =>
      refine ⟨?_, ?_, ?_, ?_⟩ <;>
        simp +decide [Decl.build, PostQueryParam, Decl.bodyCount, EndpointParam.options,
          Argument.options, hasFlag, flagArgument, flagParsesQuery, flagResponseStatus,
          flagReadsRequestBody, flagWritesResponse, flagError]
  | requiredPostQueryParamD name =>
      refine ⟨?_, ?_, ?_, ?_⟩ <;>
        simp +decide [Decl.build, RequiredPostQueryParam, Decl.bodyCount, EndpointParam.options,
          Argument.options, hasFlag, flagArgument, flagParsesQuery, flagResponseStatus,
          flagReadsRequestBody, flagWritesResponse, flagError]
  | cookieD name =>
      refine ⟨?_, ?_, ?_, ?_⟩ <;>
        simp +decide [Decl.build, Cookie, Decl.bodyCount, EndpointParam.options,
          Argument.options, hasFlag, flagArgument, flagParsesQuery, flagResponseStatus,
          flagReadsRequestBody, flagWritesResponse, flagError]
  | requiredCookieD name =>
      refine ⟨?_, ?_, ?_, ?_⟩ <;>
        simp +decide [Decl.build, RequiredCookie, Decl.bodyCount, EndpointParam.options,
          Argument.options, hasFlag, flagArgument, flagParsesQuery, flagResponseStatus,
          flagReadsRequestBody, flagWritesResponse, flagError]
  | responseHeadersD =>
      refine ⟨?_, ?_, ?_, ?_⟩ <;>
        simp +decide [Decl.build, ResponseHeaders, Decl.bodyCount, EndpointParam.options,
          Argument.options, hasFlag, flagArgument, flagParsesQuery, flagResponseStatus,
          flagReadsRequestBody, flagWritesResponse, flagError]
  | responseCookiesD =>
      refine ⟨?_, ?_, ?_, ?_⟩ <;>
        simp +decide [Decl.build, ResponseCookies, Decl.bodyCount, EndpointParam.options,
          Argument.options, hasFlag, flagArgument, flagParsesQuery, flagResponseStatus,
          flagReadsRequestBody, flagWritesResponse, flagError]
  | responseWriterD =>
      refine ⟨?_, ?_, ?_, ?_⟩ <;>
        simp +decide [Decl.build, ResponseWriter, Decl.bodyCount, EndpointParam.options,
          Argument.options, hasFlag, flagArgument, flagParsesQuery, flagResponseStatus,
          flagReadsRequestBody, flagWritesResponse, flagError]
  | requestD =>
      refine ⟨?_, ?_, ?_, ?_⟩ <;>
        simp +decide [Decl.build, Request, Decl.bodyCount, EndpointParam.options,
          Argument.options, hasFlag, flagArgument, flagParsesQuery, flagResponseStatus,
          flagReadsRequestBody, flagWritesResponse, flagError]
  | responseStatusD status =>
      refine ⟨?_, ?_, ?_, ?_⟩ <;>
        simp +decide [Decl.build, ResponseStatus, Decl.bodyCount, EndpointParam.options,
          Argument.options, hasFlag, flagArgument, flagParsesQuery, flagResponseStatus,
          flagReadsRequestBody, flagWritesResponse, flagError]
  | middlewareD =>
      refine ⟨?_, ?_, ?_, ?_⟩ <;>
        simp +decide [Decl.build, Middleware, Decl.bodyCount, EndpointParam.options,
          Argument.options, hasFlag, flagArgument, flagParsesQuery, flagResponseStatus,
          flagReadsRequestBody, flagWritesResponse, flagError]
  | requestStructD typ =>
      cases hr : requestStruct typ with
      | error e =>
          exfalso
          exact hne e (by simp [Decl.build, RequestStruct, hr])
      | ok a =>
          have hf := requestStruct_flags typ a hr
          have hb : Decl.build (.requestStructD typ) = .argParam a := by
            simp [Decl.build, RequestStruct, hr]
          rw [hb]
          simp only [EndpointParam.options]
          refine ⟨hf.2.1, ?_, ?_, ?_⟩
          · constructor
            · intro _
              exact hf.1
            · intro _
              exact ⟨a, rfl⟩
          · show hasFlag a.options flagReadsRequestBody = true ↔ typeBodyCount typ = 1
            exact hf.2.2.1
          · show typeBodyCount typ ≤ 1
            exact hf.2.2.2
  | requestStructDirectD typ =>
      cases hr : requestStruct typ with
      | error e =>
          exfalso
          exact hne e (by simp [Decl.build, RequestStructDirect, hr])
      | ok a =>
          have hf := requestStruct_flags typ a hr
          cases a with
          | tagStructArgument t f args =>
              have hb : Decl.build (.requestStructDirectD typ)
                  = .argParam (.tagStructDirectArgument t f args) := by
                simp [Decl.build, RequestStructDirect, hr]
              rw [hb]
              simp only [EndpointParam.options]
              have hopts : (Argument.tagStructDirectArgument t f args).options
                  = (Argument.tagStructArgument t f args).options := rfl
              refine ⟨?_, ?_, ?_, ?_⟩
              · rw [hopts]; exact hf.2.1
              · constructor
                · intro _
                  rw [hopts]; exact hf.1
                · intro _
                  exact ⟨_, rfl⟩
              · show hasFlag (Argument.tagStructDirectArgument t f args).options
                    flagReadsRequestBody = true ↔ typeBodyCount typ = 1
                rw [hopts]; exact hf.2.2.1
              · show typeBodyCount typ ≤ 1
                exact hf.2.2.2
          | headerArgument name =>
              have hb : Decl.build (.requestStructDirectD typ) = .argParam (.headerArgument name) := by
                simp [Decl.build, RequestStructDirect, hr]
              rw [hb]
              simp only [EndpointParam.options]
              refine ⟨hf.2.1, ⟨fun _ => hf.1, fun _ => ⟨_, rfl⟩⟩, hf.2.2.1, hf.2.2.2⟩
          | requiredHeaderArgument name =>
              have hb : Decl.build (.requestStructDirectD typ) = .argParam (.requiredHeaderArgument name) := by
                simp [Decl.build, RequestStructDirect, hr]
              rw [hb]
              simp only [EndpointParam.options]
              refine ⟨hf.2.1, ⟨fun _ => hf.1, fun _ => ⟨_, rfl⟩⟩, hf.2.2.1, hf.2.2.2⟩
          | jsonBodyArgument t1 =>
              have hb : Decl.build (.requestStructDirectD typ) = .argParam (.jsonBodyArgument t1) := by
                simp [Decl.build, RequestStructDirect, hr]
              rw [hb]
              simp only [EndpointParam.options]
              refine ⟨hf.2.1, ⟨fun _ => hf.1, fun _ => ⟨_, rfl⟩⟩, hf.2.2.1, hf.2.2.2⟩
          | jsonBodyDirectArgument t1 =>
              have hb : Decl.build (.requestStructDirectD typ) = .argParam (.jsonBodyDirectArgument t1) := by
                simp [Decl.build, RequestStructDirect, hr]
              rw [hb]
              simp only [EndpointParam.options]
              refine ⟨hf.2.1, ⟨fun _ => hf.1, fun _ => ⟨_, rfl⟩⟩, hf.2.2.1, hf.2.2.2⟩
          | stringBodyArgument =>
              have hb : Decl.build (.requestStructDirectD typ) = .argParam .stringBodyArgument := by
                simp [Decl.build, RequestStructDirect, hr]
              rw [hb]
              simp only [EndpointParam.options]
              refine ⟨hf.2.1, ⟨fun _ => hf.1, fun _ => ⟨_, rfl⟩⟩, hf.2.2.1, hf.2.2.2⟩
          | byteSliceBodyArgument =>
              have hb : Decl.build (.requestStructDirectD typ) = .argParam .byteSliceBodyArgument := by
                simp [Decl.build, RequestStructDirect, hr]
              rw [hb]
              simp only [EndpointParam.options]
              refine ⟨hf.2.1, ⟨fun _ => hf.1, fun _ => ⟨_, rfl⟩⟩, hf.2.2.1, hf.2.2.2⟩
          | bodyReaderArgument =>
              have hb : Decl.build (.requestStructDirectD typ) = .argParam .bodyReaderArgument := by
                simp [Decl.build, RequestStructDirect, hr]
              rw [hb]
              simp only [EndpointParam.options]
              refine ⟨hf.2.1, ⟨fun _ => hf.1, fun _ => ⟨_, rfl⟩⟩, hf.2.2.1, hf.2.2.2⟩
          | urlParamArgument name =>
              have hb : Decl.build (.requestStructDirectD typ) = .argParam (.urlParamArgument name) := by
                simp [Decl.build, RequestStructDirect, hr]
              rw [hb]
              simp only [EndpointParam.options]
              refine ⟨hf.2.1, ⟨fun _ => hf.1, fun _ => ⟨_, rfl⟩⟩, hf.2.2.1, hf.2.2.2⟩
          | contextArgument =>
              have hb : Decl.build (.requestStructDirectD typ) = .argParam .contextArgument := by
                simp [Decl.build, RequestStructDirect, hr]
              rw [hb]
              simp only [EndpointParam.options]
              refine ⟨hf.2.1, ⟨fun _ => hf.1, fun _ => ⟨_, rfl⟩⟩, hf.2.2.1, hf.2.2.2⟩
          | queryParamArgument name =>
              have hb : Decl.build (.requestStructDirectD typ) = .argParam (.queryParamArgument name) := by
                simp [Decl.build, RequestStructDirect, hr]
              rw [hb]
              simp only [EndpointParam.options]
              refine ⟨hf.2.1, ⟨fun _ => hf.1, fun _ => ⟨_, rfl⟩⟩, hf.2.2.1, hf.2.2.2⟩
          | requiredQueryParamArgument name =>
              have hb : Decl.build (.requestStructDirectD typ) = .argParam (.requiredQueryParamArgument name) := by
                simp [Decl.build, RequestStructDirect, hr]
              rw [hb]
              simp only [EndpointParam.options]
              refine ⟨hf.2.1, ⟨fun _ => hf.1, fun _ => ⟨_, rfl⟩⟩, hf.2.2.1, hf.2.2.2⟩
          | postQueryParamArgument name =>
              have hb : Decl.build (.requestStructDirectD typ) = .argParam (.postQueryParamArgument name) := by
                simp [Decl.build, RequestStructDirect, hr]
              rw [hb]
              simp only [EndpointParam.options]
              refine ⟨hf.2.1, ⟨fun _ => hf.1, fun _ => ⟨_, rfl⟩⟩, hf.2.2.1, hf.2.2.2⟩
          | requiredPostQueryParamArgument name =>
              have hb : Decl.build (.requestStructDirectD typ) = .argParam (.requiredPostQueryParamArgument name) := by
                simp [Decl.build, RequestStructDirect, hr]
              rw [hb]
              simp only [EndpointParam.options]
              refine ⟨hf.2.1, ⟨fun _ => hf.1, fun _ => ⟨_, rfl⟩⟩, hf.2.2.1, hf.2.2.2⟩
          | cookieArgument name =>
              have hb : Decl.build (.requestStructDirectD typ) = .argParam (.cookieArgument name) := by
                simp [Decl.build, RequestStructDirect, hr]
              rw [hb]
              simp only [EndpointParam.options]
              refine ⟨hf.2.1, ⟨fun _ => hf.1, fun _ => ⟨_, rfl⟩⟩, hf.2.2.1, hf.2.2.2⟩
          | requiredCookieArgument name =>
              have hb : Decl.build (.requestStructDirectD typ) = .argParam (.requiredCookieArgument name) := by
                simp [Decl.build, RequestStructDirect, hr]
              rw [hb]
              simp only [EndpointParam.options]
              refine ⟨hf.2.1, ⟨fun _ => hf.1, fun _ => ⟨_, rfl⟩⟩, hf.2.2.1, hf.2.2.2⟩
          | headerSetterArgument =>
              have hb : Decl.build (.requestStructDirectD typ) = .argParam .headerSetterArgument := by
                simp [Decl.build, RequestStructDirect, hr]
              rw [hb]
              simp only [EndpointParam.options]
              refine ⟨hf.2.1, ⟨fun _ => hf.1, fun _ => ⟨_, rfl⟩⟩, hf.2.2.1, hf.2.2.2⟩
          | cookieSetterArgument =>
              have hb : Decl.build (.requestStructDirectD typ) = .argParam .cookieSetterArgument := by
                simp [Decl.build, RequestStructDirect, hr]
              rw [hb]
              simp only [EndpointParam.options]
              refine ⟨hf.2.1, ⟨fun _ => hf.1, fun _ => ⟨_, rfl⟩⟩, hf.2.2.1, hf.2.2.2⟩
          | responseWriterArgument =>
              have hb : Decl.build (.requestStructDirectD typ) = .argParam .responseWriterArgument := by
                simp [Decl.build, RequestStructDirect, hr]
              rw [hb]
              simp only [EndpointParam.options]
              refine ⟨hf.2.1, ⟨fun _ => hf.1, fun _ => ⟨_, rfl⟩⟩, hf.2.2.1, hf.2.2.2⟩
          | fullRequestArgument =>
              have hb : Decl.build (.requestStructDirectD typ) = .argParam .fullRequestArgument := by
                simp [Decl.build, RequestStructDirect, hr]
              rw [hb]
              simp only [EndpointParam.options]
              refine ⟨hf.2.1, ⟨fun _ => hf.1, fun _ => ⟨_, rfl⟩⟩, hf.2.2.1, hf.2.2.2⟩
          | asIntArgument inner =>
              have hb : Decl.build (.requestStructDirectD typ) = .argParam (.asIntArgument inner) := by
                simp [Decl.build, RequestStructDirect, hr]
              rw [hb]
              simp only [EndpointParam.options]
              refine ⟨hf.2.1, ⟨fun _ => hf.1, fun _ => ⟨_, rfl⟩⟩, hf.2.2.1, hf.2.2.2⟩
          | asByteSliceArgument inner =>
              have hb : Decl.build (.requestStructDirectD typ) = .argParam (.asByteSliceArgument inner) := by
                simp [Decl.build, RequestStructDirect, hr]
              rw [hb]
              simp only [EndpointParam.options]
              refine ⟨hf.2.1, ⟨fun _ => hf.1, fun _ => ⟨_, rfl⟩⟩, hf.2.2.1, hf.2.2.2⟩
          | tagStructDirectArgument t f args =>
              have hb : Decl.build (.requestStructDirectD typ) = .argParam (.tagStructDirectArgument t f args) := by
                simp [Decl.build, RequestStructDirect, hr]
              rw [hb]
              simp only [EndpointParam.options]
              refine ⟨hf.2.1, ⟨fun _ => hf.1, fun _ => ⟨_, rfl⟩⟩, hf.2.2.1, hf.2.2.2⟩
  | asIntD inner ih =>
      cases hb : inner.build with
      | errorEndpointParam e =>
          exfalso
          refine hne "AsInt() requires an argument param" ?_
          simp +decide [Decl.build, AsInt, hb, EndpointParam.options]
      | responseStatusArgument s =>
          exfalso
          refine hne "AsInt() requires an argument param" ?_
          simp +decide [Decl.build, AsInt, hb, EndpointParam.options]
      | middlewareParam =>
          exfalso
          refine hne "AsInt() requires an argument param" ?_
          simp +decide [Decl.build, AsInt, hb, EndpointParam.options]
      | argParam a0 =>
          have ihx := ih (by rw [hb]; intro e hc; exact EndpointParam.noConfusion hc)
          rw [hb] at ihx
          by_cases hfa : hasFlag a0.options flagArgument = true
          · cases hca : a0.checkArg .stringT with
            | error e =>
                exfalso
                refine hne "argument must accept a string" ?_
                simp [Decl.build, AsInt, hb, EndpointParam.options, hfa, hca]
            | ok u =>
                cases u
                have hbuild : Decl.build (.asIntD inner) = .argParam (.asIntArgument a0) := by
                  simp [Decl.build, AsInt, hb, EndpointParam.options, hfa, hca]
                rw [hbuild]
                simp only [EndpointParam.options]
                have hopts : (Argument.asIntArgument a0).options = a0.options := rfl
                refine ⟨?_, ?_, ?_, ?_⟩
                · rw [hopts]; exact ihx.1
                · exact ⟨fun _ => by rw [hopts]; exact hfa, fun _ => ⟨_, rfl⟩⟩
                · show hasFlag (Argument.asIntArgument a0).options flagReadsRequestBody = true
                      ↔ Decl.bodyCount (.asIntD inner) = 1
                  rw [hopts]
                  exact ihx.2.2.1
                · show Decl.bodyCount (.asIntD inner) ≤ 1
                  exact ihx.2.2.2
          · exfalso
            refine hne "AsInt() requires an argument param" ?_
            simp [Decl.build, AsInt, hb, EndpointParam.options, hfa]
  | asByteSliceD inner ih =>
      cases hb : inner.build with
      | errorEndpointParam e =>
          exfalso
          refine hne "AsByteSlice() requires an argument param" ?_
          simp +decide [Decl.build, AsByteSlice, hb, EndpointParam.options]
      | responseStatusArgument s =>
          exfalso
          refine hne "AsByteSlice() requires an argument param" ?_
          simp +decide [Decl.build, AsByteSlice, hb, EndpointParam.options]
      | middlewareParam =>
          exfalso
          refine hne "AsByteSlice() requires an argument param" ?_
          simp +decide [Decl.build, AsByteSlice, hb, EndpointParam.options]
      | argParam a0 =>
          have ihx := ih (by rw [hb]; intro e hc; exact EndpointParam.noConfusion hc)
          rw [hb] at ihx
          by_cases hfa : hasFlag a0.options flagArgument = true
          · cases hca : a0.checkArg .stringT with
            | error e =>
                exfalso
                refine hne "argument must accept a string" ?_
                simp [Decl.build, AsByteSlice, hb, EndpointParam.options, hfa, hca]
            | ok u =>
                cases u
                have hbuild : Decl.build (.asByteSliceD inner) = .argParam (.asByteSliceArgument a0) := by
                  simp [Decl.build, AsByteSlice, hb, EndpointParam.options, hfa, hca]
                rw [hbuild]
                simp only [EndpointParam.options]
                have hopts : (Argument.asByteSliceArgument a0).options = a0.options := rfl
                refine ⟨?_, ?_, ?_, ?_⟩
                · rw [hopts]; exact ihx.1
                · exact ⟨fun _ => by rw [hopts]; exact hfa, fun _ => ⟨_, rfl⟩⟩
                · show hasFlag (Argument.asByteSliceArgument a0).options flagReadsRequestBody = true
                      ↔ Decl.bodyCount (.asByteSliceD inner) = 1
                  rw [hopts]
                  exact ihx.2.2.1
                · show Decl.bodyCount (.asByteSliceD inner) ≤ 1
                  exact ihx.2.2.2
          · exfalso
            refine hne "AsByteSlice() requires an argument param" ?_
            simp [Decl.build, AsByteSlice, hb, EndpointParam.options, hfa]

/-- `paramArg` on an argument param (constructor-level unfolding). -/
theorem paramArg_argParam (a : Argument) :
    paramArg (.argParam a) = some a := rfl

/-- `paramArg` on a response-status param. -/
theorem paramArg_responseStatus (s : Nat) :
    paramArg (.responseStatusArgument s) = none := rfl

/-- `paramArg` on a middleware param. -/
theorem paramArg_middleware : paramArg .middlewareParam = none := rfl

/-- `paramArg` on an error param. -/
theorem paramArg_errorParam (e : String) :
    paramArg (.errorEndpointParam e) = none := rfl

/-- `options` of an argument param is the argument's options. -/
theorem options_argParam (a : Argument) :
    (EndpointParam.argParam a).options = a.options := rfl

/-- `options` of a response-status param. -/
theorem options_responseStatus (s : Nat) :
    (EndpointParam.responseStatusArgument s).options = flagResponseStatus := rfl

/-- `options` of a middleware param. -/
theorem options_middleware :
    (EndpointParam.middlewareParam).options = flagMiddleware := rfl

/-- `options` of an error param. -/
theorem options_errorParam (e : String) :
    (EndpointParam.errorEndpointParam e).options = flagError := rfl

/-- Non-argument params never carry the body flag, so counting body-flagged
params equals counting body-flagged arguments. -/
theorem countP_body_filterMap (l : List EndpointParam) :
    l.countP (fun p => hasFlag p.options flagReadsRequestBody)
      = (l.filterMap paramArg).countP (fun a => hasFlag a.options flagReadsRequestBody) := by
  induction l with
  | nil => rfl
  | cons p rest ih =>
      cases p with
      | argParam a =>
          simp only [List.countP_cons, List.filterMap_cons, paramArg_argParam,
            options_argParam, ih]
      | responseStatusArgument s =>
          simp only [List.countP_cons, List.filterMap_cons, paramArg_responseStatus,
            options_responseStatus, ih]
          simp +decide [hasFlag, flagResponseStatus, flagReadsRequestBody]
      | middlewareParam =>
          simp only [List.countP_cons, List.filterMap_cons, paramArg_middleware,
            options_middleware, ih]
          simp +decide [hasFlag, flagMiddleware, flagReadsRequestBody]
      | errorEndpointParam e =>
          simp only [List.countP_cons, List.filterMap_cons, paramArg_errorParam,
            options_errorParam, ih]
          simp +decide [hasFlag, flagError, flagReadsRequestBody]

/-- For error-free declarations, the number of body-flagged built params is
the declaration-level body-reader count. -/
theorem countP_body_eq_sum (decls : List Decl)
    (h : ∀ d ∈ decls,
      (hasFlag d.build.options flagReadsRequestBody = true ↔ d.bodyCount = 1)
        ∧ d.bodyCount ≤ 1) :
    (decls.map Decl.build).countP (fun p => hasFlag p.options flagReadsRequestBody)
      = (decls.map Decl.bodyCount).sum := by
  induction decls with
  | nil => rfl
  | cons d rest ih =>
      have hd := h d (by simp)
      have hrest : ∀ x ∈ rest,
          (hasFlag x.build.options flagReadsRequestBody = true ↔ x.bodyCount = 1)
            ∧ x.bodyCount ≤ 1 := fun x hx => h x (by simp [hx])
      simp only [List.map_cons, List.countP_cons, List.sum_cons]
      rw [ih hrest]
      have hind : (if hasFlag d.build.options flagReadsRequestBody = true then 1 else 0)
          = d.bodyCount := by
        cases hb : hasFlag d.build.options flagReadsRequestBody with
        | false =>
            have h1 : ¬ d.bodyCount = 1 := fun hc => by
              have := hd.1.mpr hc
              rw [hb] at this
              exact Bool.noConfusion this
            have h2 := hd.2
            simp
            omega
        | true =>
            simp [hd.1.mp hb]
      omega

/-- An argument list containing two body-reading arguments can never take
the legacy passthrough (which requires exactly `ResponseWriter()` +
`Request()`, of which only the latter reads the body). -/
theorem isLegacy_false_of_two_readers (rs : Nat) (args : List Argument) (hfn : HandlerFn)
    (hcnt : 2 ≤ args.countP (fun a => hasFlag a.options flagReadsRequestBody)) :
    isLegacyHandler rs args hfn = false := by
  match args with
  | [] => simp [List.countP_nil] at hcnt
  | [a0] => rfl
  | a0 :: a1 :: a2 :: rest => rfl
  | [a0, a1] =>
      by_contra hc
      rw [Bool.not_eq_false] at hc
      simp only [isLegacyHandler, decide_eq_true_eq] at hc
      obtain ⟨rfl, rfl, _⟩ := hc
      simp +decide [List.countP_cons, Argument.options, hasFlag,
        flagArgument, flagWritesResponse, flagReadsRequestBody] at hcnt

/-- C4.  For every endpoint registration whose declared providers —
including fields of tag-bound structs, transitively — contain more than one
body-reading provider, registration fails with a registration-time error
(never deferred to request time); when every declaration itself constructs
without error, the recorded error is exactly
`endpoint <name>: only one argument can read request's body`. -/
theorem multiple_body_readers_rejected (name : String) (hfn : HandlerFn)
    (decls : List Decl)
    (hcount : 2 ≤ (decls.map Decl.bodyCount).sum) :
    (∃ errs, addEndpoint name hfn (decls.map Decl.build) = .error errs) ∧
    ((∀ d ∈ decls, ∀ e, d.build ≠ .errorEndpointParam e) →
      ∃ errs, addEndpoint name hfn (decls.map Decl.build) = .error errs ∧
        ("endpoint " ++ name ++ ": only one argument can read request\x27s body") ∈ errs) := by
  have hmain : (∀ d ∈ decls, ∀ e, d.build ≠ .errorEndpointParam e) →
      ∃ errs, addEndpoint name hfn (decls.map Decl.build) = .error errs ∧
        ("endpoint " ++ name ++ ": only one argument can read request\x27s body") ∈ errs := by
    intro hne
    have hflags : ∀ d ∈ decls,
        hasFlag d.build.options flagError = false ∧
        ((∃ a, d.build = .argParam a) ↔ hasFlag d.build.options flagArgument = true) ∧
        (hasFlag d.build.options flagReadsRequestBody = true ↔ d.bodyCount = 1) ∧
        d.bodyCount ≤ 1 :=
      fun d hd => declBuild_flags d (hne d hd)
    have hfe : ∀ p ∈ decls.map Decl.build, hasFlag p.options flagError = false := by
      intro p hp
      obtain ⟨d, hd, rfl⟩ := List.mem_map.mp hp
      exact (hflags d hd).1
    have hqs : ∀ p ∈ decls.map Decl.build,
        (∃ a, p = .argParam a) ↔ hasFlag p.options flagArgument = true := by
      intro p hp
      obtain ⟨d, hd, rfl⟩ := List.mem_map.mp hp
      exact (hflags d hd).2.1
    obtain ⟨acc, hscan, hnum, hpar, _⟩ :=
      scanParams_ok name (decls.map Decl.build) 0 ⟨0, false, false, 0, []⟩ hfe
    have hcnt2 : 2 ≤ acc.numReadsBody := by
      rw [hnum, countP_body_eq_sum decls (fun d hd => (hflags d hd).2.2)]
      simpa using hcount
    have hparams : acc.params = (decls.map Decl.build).filterMap paramArg := by
      rw [hpar hqs]
      simp
    have hargcnt : 2 ≤ acc.params.countP
        (fun a => hasFlag a.options flagReadsRequestBody) := by
      rw [hparams, ← countP_body_filterMap]
      rw [hnum, countP_body_eq_sum decls (fun d hd => (hflags d hd).2.2)] at hcnt2
      rw [countP_body_eq_sum decls (fun d hd => (hflags d hd).2.2)]
      simpa using hcount
    have hleg := isLegacy_false_of_two_readers acc.returnStatus acc.params hfn hargcnt
    have herrs1 : acc.numReadsBody > 1 := by omega
    cases hch : checkHandler hfn acc.params acc.writesResponse with
    | error e =>
        refine ⟨["endpoint " ++ name ++ ": only one argument can read request\x27s body",
                 "endpoint " ++ name ++ ": " ++ e], ?_, by simp⟩
        simp [addEndpoint, hscan, hleg, hch, herrs1]
    | ok cls =>
        refine ⟨["endpoint " ++ name ++ ": only one argument can read request\x27s body"],
                ?_, by simp⟩
        simp [addEndpoint, hscan, hleg, hch, herrs1]
  constructor
  · by_cases hne : ∀ d ∈ decls, ∀ e, d.build ≠ .errorEndpointParam e
    · obtain ⟨errs, herrs, _⟩ := hmain hne
      exact ⟨errs, herrs⟩
    · push_neg at hne
      obtain ⟨d, hd, e, hde⟩ := hne
      have hflag : ∃ p ∈ decls.map Decl.build, hasFlag p.options flagError = true := by
        refine ⟨d.build, List.mem_map.mpr ⟨d, hd, rfl⟩, ?_⟩
        rw [hde, options_errorParam]
        decide
      obtain ⟨msg, hmsg⟩ := scanParams_error name (decls.map Decl.build) 0
        ⟨0, false, false, 0, []⟩ hflag
      refine ⟨[msg], ?_⟩
      simp [addEndpoint, hmsg]
  · exact hmain

/-- Witness: `StringBody()` and `ByteSliceBody()` declared together on a
concrete endpoint are rejected at registration. -/
theorem multiple_body_readers_rejected_witness :
    2 ≤ (([Decl.stringBodyD, Decl.byteSliceBodyD]).map Decl.bodyCount).sum ∧
    (∃ errs, addEndpoint "t" (HandlerFn.mk true [.stringT, .byteSliceT] [.errorT])
        (([Decl.stringBodyD, Decl.byteSliceBodyD]).map Decl.build) = .error errs) :=
  ⟨by decide,
   (multiple_body_readers_rejected "t" (HandlerFn.mk true [.stringT, .byteSliceT] [.errorT])
      [Decl.stringBodyD, Decl.byteSliceBodyD] (by decide)).1⟩

/-- A handler that is not of the legacy `func(http.ResponseWriter,
*http.Request)` shape never takes the legacy passthrough. -/
theorem isLegacy_false_of_sig (rs : Nat) (args : List Argument) (hfn : HandlerFn)
    (h : legacySignature hfn = false) : isLegacyHandler rs args hfn = false := by
  match args with
  | [] => simp [isLegacyHandler, h]
  | [a0] => rfl
  | [a0, a1] => simp [isLegacyHandler, h]
  | a0 :: a1 :: a2 :: rest => rfl

/-- C5 counterexample: a handler whose parameter count equals the number of
declared argument providers can still fail registration, because the
per-argument type check runs as well (here an `int` parameter is rejected
for a `RequiredHeader` provider).  Registration failure is therefore not
equivalent to an arity mismatch. -/
theorem arity_iff_cex :
    (HandlerFn.mk true [.intT] [.errorT]).inTypes.length
        = (([RequiredHeader "X"]).filterMap paramArg).length ∧
    addEndpoint "test" (HandlerFn.mk true [.intT] [.errorT]) [RequiredHeader "X"]
      = .error ["endpoint test: (argument 0) expected a string type"] :=
  ⟨rfl, rfl⟩

/-- C5.  (amended direction) For every registration of a function handler
that is not of the legacy shape, with error-free declarations: if the
handler parameter count differs from the number of declared positional
argument providers, registration fails and the recorded errors include
`endpoint <name>: number of arguments of a function doesn't match provided
arguments`. -/
theorem arity_mismatch_rejected (name : String) (hfn : HandlerFn) (decls : List Decl)
    (hfunc : hfn.kindIsFunc = true)
    (hsig : legacySignature hfn = false)
    (hne : ∀ d ∈ decls, ∀ e, d.build ≠ .errorEndpointParam e)
    (hmis : hfn.inTypes.length ≠ ((decls.map Decl.build).filterMap paramArg).length) :
    ∃ errs, addEndpoint name hfn (decls.map Decl.build) = .error errs ∧
      ("endpoint " ++ name
        ++ ": number of arguments of a function doesn\x27t match provided arguments") ∈ errs := by
  have hflags : ∀ d ∈ decls,
      hasFlag d.build.options flagError = false ∧
      ((∃ a, d.build = .argParam a) ↔ hasFlag d.build.options flagArgument = true) ∧
      (hasFlag d.build.options flagReadsRequestBody = true ↔ d.bodyCount = 1) ∧
      d.bodyCount ≤ 1 :=
    fun d hd => declBuild_flags d (hne d hd)
  have hfe : ∀ p ∈ decls.map Decl.build, hasFlag p.options flagError = false := by
    intro p hp
    obtain ⟨d, hd, rfl⟩ := List.mem_map.mp hp
    exact (hflags d hd).1
  have hqs : ∀ p ∈ decls.map Decl.build,
      (∃ a, p = .argParam a) ↔ hasFlag p.options flagArgument = true := by
    intro p hp
    obtain ⟨d, hd, rfl⟩ := List.mem_map.mp hp
    exact (hflags d hd).2.1
  obtain ⟨acc, hscan, _, hpar, _⟩ :=
    scanParams_ok name (decls.map Decl.build) 0 ⟨0, false, false, 0, []⟩ hfe
  have hparams : acc.params = (decls.map Decl.build).filterMap paramArg := by
    rw [hpar hqs]
    simp
  have hmis2 : hfn.inTypes.length ≠ acc.params.length := by
    rw [hparams]
    exact hmis
  have hch : checkHandler hfn acc.params acc.writesResponse
      = .error "number of arguments of a function doesn\x27t match provided arguments" := by
    simp only [checkHandler, hfunc]
    simp [hmis2]
  have hleg := isLegacy_false_of_sig acc.returnStatus acc.params hfn hsig
  have hmerge : "endpoint " ++ name ++ ": "
        ++ "number of arguments of a function doesn\x27t match provided arguments"
      = "endpoint " ++ name
        ++ ": number of arguments of a function doesn\x27t match provided arguments" := by
    rw [String.append_assoc]
    rfl
  by_cases hnb : acc.numReadsBody > 1
  · refine ⟨["endpoint " ++ name ++ ": only one argument can read request\x27s body",
             "endpoint " ++ name
               ++ ": number of arguments of a function doesn\x27t match provided arguments"],
            ?_, by simp⟩
    rw [← hmerge]
    simp [addEndpoint, hscan, hleg, hch, hnb]
  · refine ⟨["endpoint " ++ name
               ++ ": number of arguments of a function doesn\x27t match provided arguments"],
            ?_, by simp⟩
    rw [← hmerge]
    simp [addEndpoint, hscan, hleg, hch, hnb]

/-- Witness: one declared provider against a two-parameter handler is
rejected with the arity error. -/
theorem arity_mismatch_rejected_witness :
    (HandlerFn.mk true [.stringT, .stringT] [.errorT]).kindIsFunc = true ∧
    legacySignature (HandlerFn.mk true [.stringT, .stringT] [.errorT]) = false ∧
    (HandlerFn.mk true [.stringT, .stringT] [.errorT]).inTypes.length
      ≠ ((([Decl.headerD "X"]).map Decl.build).filterMap paramArg).length ∧
    (∃ errs, addEndpoint "t" (HandlerFn.mk true [.stringT, .stringT] [.errorT])
        (([Decl.headerD "X"]).map Decl.build) = .error errs ∧
      ("endpoint " ++ "t"
        ++ ": number of arguments of a function doesn\x27t match provided arguments") ∈ errs) :=
  ⟨rfl, rfl, by decide,
   arity_mismatch_rejected "t" (HandlerFn.mk true [.stringT, .stringT] [.errorT])
     [Decl.headerD "X"] rfl rfl (by simp [Decl.build, Header]) (by decide)⟩

/-- C6.  Every successfully registered non-legacy endpoint whose declarations
are error-free and contain no explicit `ResponseStatus` defaults to success
status 200 when some declared provider writes the response, and 204 (No
Content) otherwise. -/
theorem default_status (name : String) (hfn : HandlerFn) (decls : List Decl)
    (ep : EndpointRec)
    (hne : ∀ d ∈ decls, ∀ e, d.build ≠ .errorEndpointParam e)
    (hnrs : ∀ d ∈ decls, ∀ s, d.build ≠ .responseStatusArgument s)
    (hok : addEndpoint name hfn (decls.map Decl.build) = .ok ep)
    (hleg : ep.legacy = false) :
    ep.returnStatus = if (decls.map Decl.build).any
        (fun p => hasFlag p.options flagWritesResponse) then 200 else 204 := by
  have hflags : ∀ d ∈ decls,
      hasFlag d.build.options flagError = false ∧
      ((∃ a, d.build = .argParam a) ↔ hasFlag d.build.options flagArgument = true) ∧
      (hasFlag d.build.options flagReadsRequestBody = true ↔ d.bodyCount = 1) ∧
      d.bodyCount ≤ 1 :=
    fun d hd => declBuild_flags d (hne d hd)
  have hfe : ∀ p ∈ decls.map Decl.build, hasFlag p.options flagError = false := by
    intro p hp
    obtain ⟨d, hd, rfl⟩ := List.mem_map.mp hp
    exact (hflags d hd).1
  have hnrs2 : ∀ p ∈ decls.map Decl.build, ∀ s, p ≠ .responseStatusArgument s := by
    intro p hp s
    obtain ⟨d, hd, rfl⟩ := List.mem_map.mp hp
    exact hnrs d hd s
  obtain ⟨acc, hscan, _, _, hrs⟩ :=
    scanParams_ok name (decls.map Decl.build) 0 ⟨0, false, false, 0, []⟩ hfe
  have hrs2 := hrs hnrs2
  simp only [addEndpoint, hscan] at hok
  cases hl : isLegacyHandler acc.returnStatus acc.params hfn with
  | true =>
      rw [hl] at hok
      simp only [if_true, Except.ok.injEq] at hok
      rw [← hok] at hleg
      simp at hleg
  | false =>
      rw [hl] at hok
      simp only [Bool.false_eq_true, if_false] at hok
      cases hch : checkHandler hfn acc.params acc.writesResponse with
      | error e =>
          rw [hch] at hok
          simp at hok
      | ok cls =>
          rw [hch] at hok
          by_cases hnb : acc.numReadsBody > 1
          · simp [hnb] at hok
          · simp [hnb] at hok
            subst hok
            cases hany : (decls.map Decl.build).any
                (fun p => hasFlag p.options flagWritesResponse) with
            | true =>
                have : acc.returnStatus = 200 := by
                  rw [hrs2]
                  simp [hany]
                simp [this]
            | false =>
                have : acc.returnStatus = 0 := by
                  rw [hrs2]
                  simp [hany]
                simp [this]

/-- Witness: a concrete endpoint declaring only `ResponseWriter()` registers
non-legacy with default status 200. -/
theorem default_status_witness :
    (EndpointRec.mk "t" 200 false false (some .errorOnlyHandler)
        [.responseWriterArgument]).returnStatus
      = if (([Decl.responseWriterD]).map Decl.build).any
          (fun p => hasFlag p.options flagWritesResponse) then 200 else 204 :=
  default_status "t" (HandlerFn.mk true [.responseWriterT] [.errorT])
    [Decl.responseWriterD]
    (EndpointRec.mk "t" 200 false false (some .errorOnlyHandler)
      [.responseWriterArgument])
    (by simp [Decl.build, ResponseWriter])
    (by simp [Decl.build, ResponseWriter])
    (by rfl) rfl

end Smartapi
